import Mathlib

/-!
# A shallow embedding of `su.c`

The set-uid `su` mediator: caller introspection (`from_init`), the
CyanogenMod policy gate (`access_disabled`), the handshake with the
requestor (`socket_send_request`, `socket_receive_result`), the exec
hand-off (`allow`) and the orchestrator (`main`).

C strings are lists of bytes (`List Nat`) holding the bytes before the
terminating NUL; raw buffers are lists of bytes that may contain NUL.
System calls and the functions of `utils.c` / `activity.c` / `db.c` are
oracles: their results are fields of the environment the model runs in.
-/

namespace Su

/-! ## C strings -/

/-- Bytes of a string literal. -/
def str (s : String) : List Nat := s.toList.map Char.toNat

/-- The C string stored at the start of a buffer: the bytes before the first NUL. -/
def cstr (buf : List Nat) : List Nat := buf.takeWhile (fun b => b != 0)

/-- Embedding of `strlen`. -/
def strlen (s : List Nat) : Nat := (cstr s).length

/-- Embedding of `strcmp` on C strings; only the sign of the result is meaningful. -/
def strcmp : List Nat → List Nat → Int
  | [], [] => 0
  | [], _ :: _ => -1
  | _ :: _, [] => 1
  | a :: as, b :: bs => if a = b then strcmp as bs else (if a < b then -1 else 1)

/-- Embedding of `strncmp` on C strings: at most `n` bytes are compared. -/
def strncmp : List Nat → List Nat → Nat → Int
  | _, _, 0 => 0
  | [], [], _ + 1 => 0
  | [], _ :: _, _ + 1 => -1
  | _ :: _, [], _ + 1 => 1
  | a :: as, b :: bs, n + 1 => if a = b then strncmp as bs n else (if a < b then -1 else 1)

/-- Embedding of `isspace` in the C locale. -/
def isspace (b : Nat) : Bool := b == 32 || (9 ≤ b && b ≤ 13)

/-- Embedding of `isdigit`. -/
def isdigit (b : Nat) : Bool := 48 ≤ b && b ≤ 57

/-- Value of the leading run of decimal digits, accumulated left to right. -/
def digitsValue : Nat → List Nat → Nat
  | acc, [] => acc
  | acc, b :: bs => if isdigit b then digitsValue (acc * 10 + (b - 48)) bs else acc

/-- Embedding of `atoi` as bionic implements it, `(int)strtol(s, NULL, 10)` with a 32-bit `long`:
leading white space, an optional sign, decimal digits, clamped to the `long` range. -/
def atoi (s : List Nat) : Int :=
  match s.dropWhile isspace with
  | 45 :: rest => max (-(digitsValue 0 rest : Int)) (-2147483648)
  | 43 :: rest => min (digitsValue 0 rest : Int) 2147483647
  | rest => min (digitsValue 0 rest : Int) 2147483647

/-! ## Constants of the platform headers and of `su.h` -/

/-- Embedding of `AID_ROOT` of `android_filesystem_config.h`. -/
def AID_ROOT : Nat := 0

/-- Embedding of `AID_SHELL` of `android_filesystem_config.h`. -/
def AID_SHELL : Nat := 2000

/-- Embedding of `PROPERTY_VALUE_MAX` of `cutils/properties.h`. -/
def PROPERTY_VALUE_MAX : Nat := 92

/-- Modelled from the spec: `CM_ROOT_ACCESS_APPS_ONLY` of the missing `su.h`,
bit 0 of `persist.sys.root_access`, "apps allowed". -/
def CM_ROOT_ACCESS_APPS_ONLY : Int := 1

/-- Modelled from the spec: `CM_ROOT_ACCESS_ADB_ONLY` of the missing `su.h`,
bit 1 of `persist.sys.root_access`, "adb-shell allowed". -/
def CM_ROOT_ACCESS_ADB_ONLY : Int := 2

/-- Embedding of `allow_t` of `su.h`. -/
inductive allow_t where
  | INTERACTIVE
  | DENY
  | ALLOW
  deriving DecidableEq, Repr

/-! ## The policy gate -/

/-- What `access_disabled` obtains from the property files through the helpers of
`utils.c` (`read_file`, `check_property`, `get_property`), which are not part of
the source at hand: their results are taken as given. -/
structure PropFiles where
  /-- Result of `check_property(data, "ro.cm.version")` on `/system/build.prop`. -/
  cm_version : Bool
  /-- Result of `get_property(data, build_type, "ro.build.type", "")`. -/
  build_type : List Nat
  /-- Result of `get_property(data, debuggable, "ro.debuggable", "0")` on `/default.prop`. -/
  debuggable : List Nat
  /-- Result of `read_file("/data/property/persist.sys.root_access")`, `none` for `NULL`. -/
  root_access : Option (List Nat)

/-- The buffer `enabled` of `access_disabled` after the `memcpy`s. -/
def enabled_value (root_access : Option (List Nat)) : List Nat :=
  match root_access with
  | some data =>
    if strlen data ≥ PROPERTY_VALUE_MAX then str "1" else cstr data
  | none => str "1"

/-- Embedding of `access_disabled`: non-zero when the policy gate refuses the caller. -/
def access_disabled (p : PropFiles) (from_uid : Nat) : Int :=
  if p.cm_version then
    /- only allow su on debuggable builds -/
    if strcmp (str "1") p.debuggable != 0 then 1
    else
      let enabled := enabled_value p.root_access
      /- enforce persist.sys.root_access on non-eng builds for apps -/
      if strcmp (str "eng") p.build_type != 0 &&
          from_uid != AID_SHELL && from_uid != AID_ROOT &&
          Int.land (atoi enabled) CM_ROOT_ACCESS_APPS_ONLY != CM_ROOT_ACCESS_APPS_ONLY then 1
      /- disallow su in a shell if appropriate -/
      else if from_uid == AID_SHELL &&
          Int.land (atoi enabled) CM_ROOT_ACCESS_ADB_ONLY != CM_ROOT_ACCESS_ADB_ONLY then 1
      else 0
  else 0

/-! ## The response frame -/

/-- Embedding of `SOCKET_RESPONSE`. -/
def SOCKET_RESPONSE : List Nat := str "socket:"

/-- Embedding of `socket_receive_result(fd, buf, sizeof(buf))` with `buf` of `result_len` bytes: one
`read` of at most `result_len - 1` bytes, `none` being a failed `read`; the result is
the return value and the buffer with the terminating NUL stored at `result[len]`. -/
def socket_receive_result (incoming : Option (List Nat)) (result_len : Nat) :
    Int × List Nat :=
  match incoming with
  | none => (-1, [])
  | some bytes => (0, bytes.take (result_len - 1) ++ [0])

/-- The end of `main`: the verdict that the response buffer `buf` stands for.
`ALLOW` is the call of `allow`, `DENY` the call of `deny`. -/
def parse_verdict (buf : List Nat) : allow_t :=
  let result := cstr buf
  let result :=
    if strncmp result SOCKET_RESPONSE (SOCKET_RESPONSE.length) != 0 then result
    else result.drop (SOCKET_RESPONSE.length)
  if strcmp result (str "DENY") == 0 then allow_t.DENY
  else if strcmp result (str "ALLOW") == 0 then allow_t.ALLOW
  else allow_t.DENY

/-! ## The request frame -/

/-- Embedding of `PATH_MAX` of `limits.h`. -/
def PATH_MAX : Nat := 4096

/-- Embedding of `ARG_MAX` of `limits.h`. -/
def ARG_MAX : Nat := 131072

/-- Compile-time constants of `su.h`, which is not part of the source at hand. -/
structure Header where
  /-- The constant `PROTO_VERSION`. -/
  PROTO_VERSION : Nat
  /-- The constant `REQUESTOR_CACHE_PATH`. -/
  REQUESTOR_CACHE_PATH : List Nat
  /-- The value of `sizeof(from->args)`, the size of the `args` field of `struct su_initiator`. -/
  ARGS_SIZE : Nat

/-- The four bytes that `uint32_t __data = htonl(data)` holds in memory, first byte
first: `data` is converted to 32 bits and stored most significant byte first. -/
def htonl (data : Nat) : List Nat :=
  let d := data % 2 ^ 32
  [d / 2 ^ 24 % 256, d / 2 ^ 16 % 256, d / 2 ^ 8 % 256, d % 256]

/-- The far end of the connected socket: the bytes written so far and the number of
`write` calls made so far. -/
structure Wire where
  sent : List Nat
  calls : Nat
  deriving DecidableEq, Repr

/-- One `write(fd, data, count)`. The oracle `ret` gives the return value of the call
from its index and `count`; a non-negative return value is the number of bytes of
`data` that went out. -/
def write (ret : Nat → Nat → Int) (w : Wire) (data : List Nat) : Int × Wire :=
  let r := ret w.calls data.length
  (r, { sent := w.sent ++ data.take r.toNat, calls := w.calls + 1 })

/-- The macro `write_token(fd, data)` followed by the rest `k` of the function:
a short write makes the function return -1. -/
def write_token (ret : Nat → Nat → Int) (data : Nat) (k : Wire → Int × Wire)
    (w : Wire) : Int × Wire :=
  let __data := htonl data
  let __count := __data.length
  let (__len, w) := write ret w __data
  if __len != (__count : Int) then (-1, w) else k w

/-- A `write` of a whole buffer followed by the rest `k` of the function
(`len = write(fd, buf, size); if (len != size) return -1;`). -/
def write_buf (ret : Nat → Nat → Int) (buf : List Nat) (k : Wire → Int × Wire)
    (w : Wire) : Int × Wire :=
  let (len, w) := write ret w buf
  if len != (buf.length : Int) then (-1, w) else k w

/-- Embedding of `socket_send_request`, on the fields of the context it reads: the caller uid, the
target uid, the caller `bin` string and `cmd`, the string `get_command(&ctx->to)`
returns. The result is the return value and the state of the socket. -/
def socket_send_request (hdr : Header) (ret : Nat → Nat → Int)
    (from_uid to_uid : Nat) (bin cmd : List Nat) (w : Wire) : Int × Wire :=
  write_token ret hdr.PROTO_VERSION (
  write_token ret PATH_MAX (
  write_token ret ARG_MAX (
  write_token ret from_uid (
  write_token ret to_uid (
  let bin_size := strlen bin + 1
  write_token ret bin_size (
  write_buf ret (cstr bin ++ [0]) (
  let cmd_size := strlen cmd + 1
  write_token ret cmd_size (
  write_buf ret (cstr cmd ++ [0]) (
  fun w => (0, w)))))))))) w

/-! ## Caller introspection -/

/-- Embedding of `struct su_initiator`. -/
structure su_initiator where
  pid : Int
  uid : Nat
  bin : List Nat
  args : List Nat
  deriving DecidableEq, Repr

/-- What `from_init` obtains from the system. -/
structure ProcFs where
  /-- Result of `getuid()`. -/
  getuid : Nat
  /-- Result of `getppid()`. -/
  getppid : Nat
  /-- Whether `open("/proc/<ppid>/cmdline")` succeeded. -/
  cmdline_open : Bool
  /-- The bytes `/proc/<ppid>/cmdline` has to deliver, `none` when `read` fails. -/
  cmdline : Option (List Nat)
  /-- The target of `/proc/<ppid>/exe`, `none` when `readlink` fails. -/
  exe : Option (List Nat)

/-- Embedding of `sizeof(args)` in `from_init`. -/
def ARGS_BUF : Nat := 4096

/-- Embedding of `read(fd, args, sizeof(args))` on the command line: the return value `len` and the
bytes stored in `args[0 .. len)`. -/
def read_cmdline (cmdline : Option (List Nat)) : Int × List Nat :=
  match cmdline with
  | none => (-1, [])
  | some bytes => (((bytes.take ARGS_BUF).length : Nat), bytes.take ARGS_BUF)

/-- The loop of `from_init` over `args[0 .. len)`: the first NUL marks the start of
`argv_rest`, every later NUL becomes a space. -/
def split_cmdline (len : Nat) (args : List Nat) : List Nat × Option Nat :=
  (List.range len).foldl
    (fun (st : List Nat × Option Nat) i =>
      if st.1.getD i 0 = 0 then
        match st.2 with
        | none => (st.1, some (i + 1))
        | some _ => (st.1.set i 32, st.2)
      else st)
    (args, none)

/-- Embedding of `strncpy(dst, src, size); dst[size-1] = '\0';` as a C string. -/
def strncpy_term (src : List Nat) (size : Nat) : List Nat :=
  (cstr src).take (size - 1)

/-- The step of `from_init` that reads the command line (up to the `return -1` after
`read`): `none` when the step fails, else `len` and the buffer `args`. -/
def from_init_cmdline (fs : ProcFs) : Option (Nat × List Nat) :=
  if !fs.cmdline_open then none
  else
    let (len, args) := read_cmdline fs.cmdline
    if len < 0 || len == (ARGS_BUF : Int) then none
    else some (len.toNat, args)

/-- Embedding of `from_init`: the return value and the initiator record. -/
def from_init (hdr : Header) (fs : ProcFs) (frm : su_initiator) : Int × su_initiator :=
  let frm := { frm with uid := fs.getuid, pid := (fs.getppid : Int) }
  match from_init_cmdline fs with
  | none => (-1, frm)
  | some (len, args) =>
    let (args, argv_rest) := split_cmdline len args
    let args := args.take len ++ [0]
    let frm :=
      match argv_rest with
      | some r => { frm with args := strncpy_term (args.drop r) hdr.ARGS_SIZE }
      | none => { frm with args := [] }
    /- If this isn't app_process, use the real path instead of argv[0] -/
    match fs.exe with
    | none => (-1, frm)
    | some link =>
      let exe := link.take PATH_MAX ++ [0]
      let argv0 := if strcmp (cstr exe) (str "/system/bin/app_process") != 0 then exe else args
      (0, { frm with bin := strncpy_term argv0 PATH_MAX })

/-! ## The context, the process and its runs -/

/-- Embedding of `struct su_request`: the target record that option parsing in `main` builds. -/
structure su_request where
  uid : Nat
  login : Bool
  keepenv : Bool
  shell : List Nat
  command : Option (List Nat)
  argv : List (List Nat)
  argc : Int
  optind : Int
  deriving DecidableEq, Repr

/-- Embedding of `struct su_user_info`, without the three path buffers. -/
structure su_user_info where
  userid : Nat
  owner_mode : Int
  deriving DecidableEq, Repr

/-- Embedding of `struct su_context`; `frm` is the field `from` and `to_` the field `to`. -/
structure su_context where
  frm : su_initiator
  to_ : su_request
  user : su_user_info
  child : Int
  umask : Nat
  sock_path : List Nat
  deriving DecidableEq, Repr

/-- The action kinds of `send_intent`. -/
inductive action where
  | ACTION_REQUEST
  | ACTION_RESULT
  deriving DecidableEq, Repr

/-- Credentials of the process. -/
structure Cred where
  ruid : Nat
  euid : Nat
  suid : Nat
  rgid : Nat
  egid : Nat
  sgid : Nat
  groups : List Nat
  deriving DecidableEq, Repr

/-- What a run does that the properties are about, in order. -/
inductive Event where
  | send_intent (verdict : allow_t) (act : action)
  | deny
  | allow
  | set_identity (uid : Nat)
  | execv (shell : List Nat) (argv : Option (List (List Nat))) (cred : Cred)
  | exit (status : Nat)
  deriving DecidableEq, Repr

/-- The process and the part of the system it acts on. -/
structure World where
  cred : Cred
  /-- The socket files that exist. -/
  files : List (List Nat)
  umask : Nat
  /-- Whether `cleanup` is registered with `atexit`. -/
  atexit_cleanup : Bool
  /-- Whether `cleanup_signal` is installed for HUP, PIPE, TERM, QUIT, INT and ABRT. -/
  handlers : Bool
  trace : List Event
  deriving DecidableEq, Repr

/-- The context of `main` together with the process. -/
structure State where
  ctx : su_context
  w : World
  deriving DecidableEq, Repr

/-- How a run ends: `exit`, or `execv` replaced the process image. -/
inductive Ending where
  | exited (status : Nat)
  | exec
  deriving DecidableEq, Repr

/-- A finished run. -/
structure Run where
  ending : Ending
  st : State
  deriving DecidableEq, Repr

/-- Everything a run of `main` takes from outside: the target record, the constants of
`su.h`, and the result of every system call and of every call into `utils.c`,
`activity.c` and `db.c`. -/
structure Env where
  hdr : Header
  /-- The target record after option parsing (lines 540-597 of `main`). -/
  to_ : su_request
  /-- Credentials and socket files when `main` starts. -/
  cred : Cred
  files : List (List Nat)
  /-- Result of `getpid()`. -/
  pid : Nat
  procfs : ProcFs
  /-- The buffer `mode` of `read_options` after `fgets`, `none` when `fopen` fails. -/
  options : Option (List Nat)
  props : PropFiles
  /-- The umask of the process when `main` starts. -/
  umask : Nat
  /-- Result of `stat(ctx.user.data_path, &st)`: `st_uid` and `st_gid`, `none` on failure. -/
  stat : Option (Nat × Nat)
  chown_ok : Bool
  setgroups_ok : Bool
  setegid_ok : Bool
  seteuid_ok : Bool
  /-- Result of `database_check(&ctx)`. -/
  database_check : allow_t
  /-- Result of `get_command(&ctx->to)`. -/
  get_command : List Nat
  /-- Result of `socket(AF_LOCAL, SOCK_STREAM, 0)`. -/
  socket_fd : Int
  fcntl_ok : Bool
  bind_ok : Bool
  listen_ok : Bool
  /-- Result of `send_intent(&ctx, INTERACTIVE, ACTION_REQUEST)`. -/
  send_intent_request : Int
  /-- The value of `rc` after the `select` loop of `socket_accept`. -/
  select_rc : Int
  /-- Result of `accept(serv_fd, NULL, NULL)`. -/
  accept_fd : Int
  /-- The return value of each `write` on the connected socket. -/
  write_ret : Nat → Nat → Int
  /-- What the requestor answers, `none` when `read` fails. -/
  response : Option (List Nat)
  malloc_ok : Bool
  /-- Result of `seteuid(0)` in `set_identity`. -/
  seteuid_root_ok : Bool
  setresgid_ok : Bool
  setresuid_ok : Bool
  execv_ok : Bool

/-- Append an event to the trace. -/
def State.emit (s : State) (e : Event) : State :=
  { s with w := { s.w with trace := s.w.trace ++ [e] } }

/-- Embedding of `socket_cleanup(ctx)`: unlink the socket path if one is set, and clear it. -/
def socket_cleanup (s : State) : State :=
  if s.ctx.sock_path ≠ [] then
    { ctx := { s.ctx with sock_path := [] },
      w := { s.w with files := s.w.files.filter (fun f => f != s.ctx.sock_path) } }
  else s

/-- Embedding of `cleanup`, the `atexit` function. -/
def cleanup (s : State) : State := socket_cleanup s

/-- Embedding of `exit(status)`: the registered `atexit` function runs, then the process ends. -/
def exit (status : Nat) (s : State) : Run :=
  let s := if s.w.atexit_cleanup then cleanup s else s
  { ending := Ending.exited status, st := s.emit (Event.exit status) }

/-- Embedding of `cleanup_signal(sig)`. -/
def cleanup_signal (sig : Nat) (s : State) : Run :=
  exit (128 + sig) (socket_cleanup s)

/-- Embedding of `EXIT_FAILURE`. -/
def EXIT_FAILURE : Nat := 1

/-- Embedding of `deny(ctx)`. -/
def deny (s : State) : Run :=
  let s := s.emit Event.deny
  /- No send to UI denied requests for shell and root users (they are in the log) -/
  let s :=
    if s.ctx.frm.uid != AID_SHELL && s.ctx.frm.uid != AID_ROOT then
      s.emit (Event.send_intent allow_t.DENY action.ACTION_RESULT)
    else s
  exit EXIT_FAILURE s

/-- The value `(uid_t)-1`: as an argument of `setresuid`, `setresgid`, `seteuid` and
`setegid` it stands for "leave this id unchanged". -/
def ID_UNCHANGED : Nat := 4294967295

/-- The id that a successful `setres[ug]id` call leaves when the id was `old` and the
argument is `new`, a 32-bit `uid_t`: the argument, or `old` when the argument is
`(uid_t)-1`. -/
def set_id (old new : Nat) : Nat :=
  if new % 2 ^ 32 = ID_UNCHANGED then old else new % 2 ^ 32

/-- Embedding of `set_identity(uid)` followed by the rest `k` of the caller. -/
def set_identity (env : Env) (uid : Nat) (k : State → Run) (s : State) : Run :=
  let s := s.emit (Event.set_identity uid)
  if !env.seteuid_root_ok then exit EXIT_FAILURE s
  else
    let s := { s with w := { s.w with cred := { s.w.cred with euid := 0 } } }
    if !env.setresgid_ok then exit EXIT_FAILURE s
    else
      let s := { s with w := { s.w with cred :=
        { s.w.cred with rgid := set_id s.w.cred.rgid uid, egid := set_id s.w.cred.egid uid,
                        sgid := set_id s.w.cred.sgid uid } } }
      if !env.setresuid_ok then exit EXIT_FAILURE s
      else
        k { s with w := { s.w with cred :=
          { s.w.cred with ruid := set_id s.w.cred.ruid uid, euid := set_id s.w.cred.euid uid,
                          suid := set_id s.w.cred.suid uid } } }

/-- Embedding of `strrchr(s, c)`: the string from the last `c` of `s` on, `none` for `NULL`. -/
def strrchr : List Nat → Nat → Option (List Nat)
  | [], _ => none
  | b :: bs, c =>
    match strrchr bs c with
    | some t => some t
    | none => if b = c then some (b :: bs) else none

/-- The `arg0` of `allow` before the login prefix. -/
def shell_arg0 (shell : List Nat) : List Nat :=
  match strrchr shell 47 with
  | some t => t.drop 1
  | none => shell

/-- Embedding of `argv[i] = v` on an `argv` of `argv.length` slots; `none` when the slot is not one
of `argv[0 .. argc)`. -/
def argv_store (argv : List (List Nat)) (i : Int) (v : List Nat) :
    Option (List (List Nat)) :=
  if 0 ≤ i ∧ i < (argv.length : Int) then some (argv.set i.toNat v) else none

/-- The rewrite of `argv` at the end of `allow` and the vector `ctx->to.argv + argc`
handed to `execv`; `none` when a store falls outside `argv[0 .. argc)`. -/
def exec_argv (rq : su_request) (arg0 : List Nat) : Option (List (List Nat)) :=
  let argc := rq.optind
  let r :=
    match rq.command with
    | some command =>
      (argv_store rq.argv (argc - 1) command).bind fun argv =>
      (argv_store argv (argc - 2) (str "-c")).map fun argv => (argv, argc - 2)
    | none => some (rq.argv, argc)
  r.bind fun (argv, argc) =>
  (argv_store argv (argc - 1) arg0).map fun argv => argv.drop (argc - 1).toNat

/-- Embedding of `allow(ctx)`. The environment variables that `populate_environment` sets are not
part of the model. -/
def allow (env : Env) (s : State) : Run :=
  let s := s.emit Event.allow
  let s := { s with w := { s.w with umask := s.ctx.umask } }
  /- No send to UI accepted requests for shell and root users (they are in the log) -/
  let s :=
    if s.ctx.frm.uid != AID_SHELL && s.ctx.frm.uid != AID_ROOT then
      s.emit (Event.send_intent allow_t.ALLOW action.ACTION_RESULT)
    else s
  let arg0 := shell_arg0 s.ctx.to_.shell
  if s.ctx.to_.login && !env.malloc_ok then exit EXIT_FAILURE s
  else
    let arg0 := if s.ctx.to_.login then 45 :: arg0 else arg0
    set_identity env s.ctx.to_.uid (fun s =>
      let argv := exec_argv s.ctx.to_ arg0
      let s := s.emit (Event.execv s.ctx.to_.shell argv s.w.cred)
      if env.execv_ok then { ending := Ending.exec, st := s }
      else exit EXIT_FAILURE s) s

/-! ## The orchestrator -/

/-- Embedding of `read_options(ctx)`. -/
def read_options (options : Option (List Nat)) (s : State) : State :=
  match options with
  | some mode =>
    if strcmp (cstr mode) (str "user\n") == 0 then
      { s with ctx := { s.ctx with user := { s.ctx.user with owner_mode := 0 } } }
    else if strcmp (cstr mode) (str "owner\n") == 0 then
      { s with ctx := { s.ctx with user := { s.ctx.user with owner_mode := 1 } } }
    else s
  | none => s

/-- Embedding of `user_init(ctx)`, without the rewriting of the three paths. -/
def user_init (s : State) : State :=
  if s.ctx.frm.uid > 99999 then
    { s with ctx := { s.ctx with user := { s.ctx.user with userid := s.ctx.frm.uid / 100000 } } }
  else s

/-- Embedding of `sizeof(sun.sun_path)`. -/
def UNIX_PATH_MAX : Nat := 108

/-- The string `snprintf(buf, size, ...)` leaves in `buf` when the full output is `out`. -/
def snprintf (size : Nat) (out : List Nat) : List Nat := (cstr out).take (size - 1)

/-- The decimal digits of `%d` for a non-negative number. -/
def decimal (n : Nat) : List Nat := (Nat.toDigits 10 n).map Char.toNat

/-- Embedding of `socket_create_temp(ctx.sock_path, sizeof(ctx.sock_path))`: the return value, and
the state with the path stored and the socket file bound. -/
def socket_create_temp (env : Env) (s : State) : Int × State :=
  let fd := env.socket_fd
  if fd < 0 then (-1, s)
  else if !env.fcntl_ok then (-1, s)
  else
    let path := snprintf PATH_MAX (env.hdr.REQUESTOR_CACHE_PATH ++ str "/.socket" ++ decimal env.pid)
    let s := { s with ctx := { s.ctx with sock_path := path } }
    let sun_path := snprintf UNIX_PATH_MAX path
    /- Delete the socket to protect from situations when something bad occured
       previously and the kernel reused pid from that process. -/
    let s := { s with w := { s.w with files := s.w.files.filter (fun f => f != sun_path) } }
    if !env.bind_ok then (-1, s)
    else
      let s := { s with w := { s.w with files := sun_path :: s.w.files } }
      if !env.listen_ok then (-1, s)
      else (fd, s)

/-- Embedding of `socket_accept(serv_fd)`. -/
def socket_accept (env : Env) : Int :=
  if env.select_rc < 1 then -1
  else if env.accept_fd < 0 then -1
  else env.accept_fd

/-- Lines 694-709 of `main`: the verdict is parsed and `allow` or `deny` is called. -/
def main_verdict (env : Env) (buf : List Nat) (s : State) : Run :=
  match parse_verdict buf with
  | allow_t.ALLOW => allow env s
  | _ => deny s

/-- Lines 662-692 of `main`: the rendezvous with the requestor. -/
def main_rendezvous (env : Env) (s : State) : Run :=
  let created := socket_create_temp env s
  let socket_serv_fd := created.1
  let s := created.2
  if socket_serv_fd < 0 then deny s
  else
    let s := { s with w := { s.w with handlers := true, atexit_cleanup := true } }
    let s := s.emit (Event.send_intent allow_t.INTERACTIVE action.ACTION_REQUEST)
    if env.send_intent_request < 0 then deny s
    else
      let fd := socket_accept env
      if fd < 0 then deny s
      else if (socket_send_request env.hdr env.write_ret s.ctx.frm.uid s.ctx.to_.uid
          s.ctx.frm.bin env.get_command ⟨[], 0⟩).1 != 0 then deny s
      else
        let received := socket_receive_result env.response 64
        if received.1 != 0 then deny s
        else
          let s := socket_cleanup s
          main_verdict env received.2 s

/-- Lines 623-660 of `main`: the requestor's data directory is checked, the process
takes the requestor's identity and the policy database is consulted. -/
def main_mediate (env : Env) (s : State) : Run :=
  match env.stat with
  | none => deny s
  | some (st_uid, st_gid) =>
    if st_gid != st_uid then deny s
    else if !env.chown_ok then deny s
    else if !env.setgroups_ok then deny s
    else
      let s := { s with w := { s.w with cred := { s.w.cred with groups := [] } } }
      if !env.setegid_ok then deny s
      else
        let s := { s with w := { s.w with cred :=
          { s.w.cred with egid := set_id s.w.cred.egid st_gid } } }
        if !env.seteuid_ok then deny s
        else
          let s := { s with w := { s.w with cred :=
            { s.w.cred with euid := set_id s.w.cred.euid st_uid } } }
          match env.database_check with
          | allow_t.INTERACTIVE => main_rendezvous env s
          | allow_t.ALLOW => allow env s
          | allow_t.DENY => deny s

/-- The state of `main` at line 599: `ctx` as initialised, with the target record. -/
def initial (env : Env) : State :=
  { ctx :=
      { frm := { pid := -1, uid := 0, bin := [], args := [] },
        to_ := env.to_,
        user := { userid := 0, owner_mode := -1 },
        child := 0,
        umask := 0,
        sock_path := [] },
    w :=
      { cred := env.cred,
        files := env.files,
        umask := env.umask,
        atexit_cleanup := false,
        handlers := false,
        trace := [] } }

/-- Embedding of `main` from line 599 on, after option parsing. -/
def main (env : Env) : Run :=
  let s := initial env
  let introspected := from_init env.hdr env.procfs s.ctx.frm
  let s := { s with ctx := { s.ctx with frm := introspected.2 } }
  if introspected.1 < 0 then deny s
  else
    let s := read_options env.options s
    let s := user_init s
    if s.ctx.user.owner_mode == -1 && s.ctx.user.userid != 0 then deny s
    else if access_disabled env.props s.ctx.frm.uid != 0 then deny s
    else
      let s := { ctx := { s.ctx with umask := s.w.umask }, w := { s.w with umask := 0o27 } }
      if s.ctx.frm.uid == AID_ROOT || s.ctx.frm.uid == AID_SHELL then allow env s
      else main_mediate env s

/-! ## The conditions of authorization -/

/-- The event is a notification of the requestor. -/
def Event.is_intent : Event → Bool
  | Event.send_intent _ _ => true
  | _ => false

/-- The event is the transition to the target identity or the exec of the shell. -/
def Event.is_privileged : Event → Bool
  | Event.set_identity _ => true
  | Event.execv _ _ _ => true
  | _ => false

/-- The event is a result notification. -/
def Event.is_result : Event → Bool
  | Event.send_intent _ action.ACTION_RESULT => true
  | _ => false

/-- The path `socket_create_temp` stores in `ctx.sock_path`. -/
def sock_path_of (env : Env) : List Nat :=
  snprintf PATH_MAX (env.hdr.REQUESTOR_CACHE_PATH ++ str "/.socket" ++ decimal env.pid)

/-- The path `socket_create_temp` binds the socket to, `sun.sun_path`. -/
def sun_path_of (env : Env) : List Nat :=
  snprintf UNIX_PATH_MAX (sock_path_of env)

/-- The initiator record `from_init` fills in. -/
def initiator (env : Env) : su_initiator :=
  (from_init env.hdr env.procfs (initial env).ctx.frm).2

/-- Caller introspection succeeded. -/
def introspection_ok (env : Env) : Prop :=
  (from_init env.hdr env.procfs (initial env).ctx.frm).1 = 0

/-- The state of `main` after `read_options` and `user_init`. -/
def after_user_init (env : Env) : State :=
  user_init (read_options env.options
    { ctx := { (initial env).ctx with frm := initiator env }, w := (initial env).w })

/-- The owner-mode check passed. -/
def owner_mode_ok (env : Env) : Prop :=
  ¬ ((after_user_init env).ctx.user.owner_mode = -1 ∧ (after_user_init env).ctx.user.userid ≠ 0)

/-- The policy gate did not refuse. -/
def gate_ok (env : Env) : Prop :=
  access_disabled env.props (initiator env).uid = 0

/-- The requestor was asked and answered ALLOW: `database_check` returned INTERACTIVE,
socket creation, the request notification, accept, the request-frame send and the
response read all succeeded, and the response verdict is ALLOW. -/
def mediated_allow (env : Env) : Prop :=
  env.database_check = allow_t.INTERACTIVE ∧
  0 ≤ (socket_create_temp env (initial env)).1 ∧
  0 ≤ env.send_intent_request ∧
  0 ≤ socket_accept env ∧
  (socket_send_request env.hdr env.write_ret (initiator env).uid env.to_.uid
    (initiator env).bin env.get_command ⟨[], 0⟩).1 = 0 ∧
  (socket_receive_result env.response 64).1 = 0 ∧
  parse_verdict (socket_receive_result env.response 64).2 = allow_t.ALLOW

/-- The conditions under which `allow` may be reached. -/
def authorised (env : Env) : Prop :=
  introspection_ok env ∧ owner_mode_ok env ∧ gate_ok env ∧
  ((initiator env).uid = AID_ROOT ∨ (initiator env).uid = AID_SHELL ∨
    env.database_check = allow_t.ALLOW ∨ mediated_allow env)

/-! ## Example environments -/

/-- An app caller (uid 10042) runs `su -c id`: the requestor's data directory belongs
to uid and gid 10001, the policy database asks for an interactive decision, every
system call succeeds and the requestor answers "socket:ALLOW". -/
def env_app : Env :=
  { hdr := { PROTO_VERSION := 2, REQUESTOR_CACHE_PATH := str "/dev/su", ARGS_SIZE := 4096 },
    to_ := { uid := 0, login := false, keepenv := false, shell := str "/system/bin/sh",
             command := some (str "id"), argv := [str "su", str "-c", str "id"],
             argc := 3, optind := 3 },
    cred := { ruid := 10042, euid := 0, suid := 0, rgid := 10042, egid := 10042,
              sgid := 10042, groups := [3003] },
    files := [],
    pid := 4711,
    procfs := { getuid := 10042, getppid := 77, cmdline_open := true,
                cmdline := some (str "app" ++ [0]),
                exe := some (str "/system/bin/app_process") },
    options := none,
    props := { cm_version := false, build_type := [], debuggable := [], root_access := none },
    umask := 18,
    stat := some (10001, 10001),
    chown_ok := true,
    setgroups_ok := true,
    setegid_ok := true,
    seteuid_ok := true,
    database_check := allow_t.INTERACTIVE,
    get_command := str "id",
    socket_fd := 3,
    fcntl_ok := true,
    bind_ok := true,
    listen_ok := true,
    send_intent_request := 0,
    select_rc := 1,
    accept_fd := 4,
    write_ret := fun _ n => n,
    response := some (str "socket:ALLOW"),
    malloc_ok := true,
    seteuid_root_ok := true,
    setresgid_ok := true,
    setresuid_ok := true,
    execv_ok := true }

/-- As `env_app`, with a caller whose command line fills the 4096 bytes of the buffer. -/
def env_overflow : Env :=
  { env_app with procfs := { env_app.procfs with cmdline := some (List.replicate 4096 65) } }

/-- As `env_app`, with the requestor answering "socket:DENY". -/
def env_denied : Env :=
  { env_app with response := some (str "socket:DENY") }

/-- The adb shell (uid 2000, with the supplementary groups adbd gives it) runs
`su -c id`. -/
def env_shell : Env :=
  { env_app with
    procfs := { getuid := 2000, getppid := 77, cmdline_open := true,
                cmdline := some (str "sh" ++ [0]),
                exe := some (str "/system/bin/sh") },
    cred := { ruid := 2000, euid := 0, suid := 0, rgid := 2000, egid := 2000, sgid := 2000,
              groups := [1003, 1004, 1007, 1011, 1015, 1028, 3001, 3002, 3003, 3006] } }

/-- The adb shell runs `su 4294967295`: the target uid is `(uid_t)-1`, which line 583 of
`main` accepts from `strtoul` unchecked. -/
def env_unchanged_id : Env :=
  { env_shell with
    to_ := { uid := 4294967295, login := false, keepenv := false,
             shell := str "/system/bin/sh", command := none,
             argv := [str "su", str "4294967295"], argc := 2, optind := 2 },
    get_command := str "/system/bin/sh" }

/-- As `env_app`, with `listen` failing after `bind` has succeeded. -/
def env_listen_fails : Env :=
  { env_app with listen_ok := false }

/-- The target record of `su -c id`: `getopt_long` leaves `optind = 3`. -/
def rq_separate : su_request :=
  { uid := 0, login := false, keepenv := false, shell := str "/system/bin/sh",
    command := some (str "id"), argv := [str "su", str "-c", str "id"],
    argc := 3, optind := 3 }

/-- The target record of `su -cid`, the command attached to the option: `getopt_long`
leaves `optind = 2` and `optarg` points into `argv[1]`. -/
def rq_attached : su_request :=
  { uid := 0, login := false, keepenv := false, shell := str "/system/bin/sh",
    command := some (str "id"), argv := [str "su", str "-cid"],
    argc := 2, optind := 2 }

/-! ## The request frame as the specification words it -/

/-- The 32-bit big-endian encoding of the specification: four bytes, most significant
first. -/
def spec_be32 (n : Nat) : List Nat :=
  [n / 16777216 % 256, n / 65536 % 256, n / 256 % 256, n % 256]

/-- The nine items of the request frame in the order of the specification: protocol
version, `PATH_MAX`, `ARG_MAX`, caller uid, target uid, length of `bin` with its NUL,
the `bin` bytes with the NUL, length of the command with its NUL, the command bytes
with the NUL. -/
def spec_request_items (hdr : Header) (from_uid to_uid : Nat) (bin cmd : List Nat) :
    List (List Nat) :=
  [spec_be32 hdr.PROTO_VERSION, spec_be32 PATH_MAX, spec_be32 ARG_MAX,
   spec_be32 from_uid, spec_be32 to_uid,
   spec_be32 (bin.length + 1), bin ++ [0],
   spec_be32 (cmd.length + 1), cmd ++ [0]]

/-- The request frame of the specification: the nine items one after the other. -/
def spec_request_frame (hdr : Header) (from_uid to_uid : Nat) (bin cmd : List Nat) :
    List Nat :=
  (spec_request_items hdr from_uid to_uid bin cmd).flatten

/-- The first `k` writes of a request go out whole: write number `i` returns the
length of item `i`. -/
def writes_complete (ret : Nat → Nat → Int) (items : List (List Nat)) (k : Nat) : Prop :=
  ∀ i, i < k → ret i (items.getD i []).length = (((items.getD i []).length : Nat) : Int)

/-- Write number `k` of a request is short: it does not return the length of item `k`. -/
def write_short (ret : Nat → Nat → Int) (items : List (List Nat)) (k : Nat) : Prop :=
  ret k (items.getD k []).length ≠ (((items.getD k []).length : Nat) : Int)

/-! ## The loop of `from_init` on lists -/

/-- The bytes the loop of `from_init` leaves in place of `bytes`, `seen` telling whether
`argv_rest` is already set: the first NUL stays, every later NUL becomes a space. -/
def loop_bytes : Bool → List Nat → List Nat
  | _, [] => []
  | seen, b :: bs =>
    if b = 0 then (if seen then 32 else 0) :: loop_bytes true bs
    else b :: loop_bytes seen bs

/-- The value of `argv_rest` (as an index into `args`) after the loop has passed `bytes`,
which start at index `i`, when it was `r` before. -/
def loop_rest : Option Nat → Nat → List Nat → Option Nat
  | r, _, [] => r
  | r, i, b :: bs =>
    if b = 0 then
      match r with
      | none => loop_rest (some (i + 1)) (i + 1) bs
      | some _ => loop_rest r (i + 1) bs
    else loop_rest r (i + 1) bs

/-- The command line blob of the arguments `argv`: each argument followed by a NUL. -/
def cmdline_blob (argv : List (List Nat)) : List Nat :=
  (argv.map (fun a => a ++ [0])).flatten

/-- The remaining arguments as the specification words them: joined by single spaces. -/
def spec_joined (rest : List (List Nat)) : List Nat :=
  List.intercalate [32] rest

/-- The caller of `env_app` with the command line of `su -c id`. -/
def procfs_su_c_id : ProcFs :=
  { getuid := 10042, getppid := 77, cmdline_open := true,
    cmdline := some (cmdline_blob [str "su", str "-c", str "id"]),
    exe := some (str "/system/bin/app_process") }

/-! ## Theorems -/

theorem strcmp_eq_zero_iff (a b : List Nat) : strcmp a b = 0 ↔ a = b := by
  induction a generalizing b with
  | nil => cases b <;> simp [strcmp]
  | cons x xs ih =>
    cases b with
    | nil => simp [strcmp]
    | cons y ys =>
      simp only [strcmp]
      by_cases h : x = y
      · simp [h, ih]
      · simp only [h, if_false, List.cons.injEq, false_and, iff_false]
        split <;> simp

theorem strncmp_eq_zero_iff (a b : List Nat) (n : Nat) :
    strncmp a b n = 0 ↔ a.take n = b.take n := by
  induction n generalizing a b with
  | zero => simp [strncmp]
  | succ n ih =>
    cases a with
    | nil => cases b <;> simp [strncmp]
    | cons x xs =>
      cases b with
      | nil => simp [strncmp]
      | cons y ys =>
        simp only [strncmp, List.take_succ_cons, List.cons.injEq]
        by_cases h : x = y
        · simp [h, ih]
        · simp only [h, if_false, false_and, iff_false]
          split <;> simp

/-! ### The response frame -/

theorem parse_verdict_eq_allow_iff (buf : List Nat) :
    parse_verdict buf = allow_t.ALLOW ↔
      cstr buf = str "socket:ALLOW" ∨ cstr buf = str "ALLOW" := by
  unfold parse_verdict
  generalize cstr buf = r
  have hlen : SOCKET_RESPONSE.length = 7 := by decide
  rw [hlen]
  have key : ∀ t : List Nat,
      (if (strcmp t (str "DENY") == 0) = true then allow_t.DENY
        else if (strcmp t (str "ALLOW") == 0) = true then allow_t.ALLOW
        else allow_t.DENY) = allow_t.ALLOW ↔ t = str "ALLOW" := by
    intro t
    simp only [beq_iff_eq, strcmp_eq_zero_iff]
    by_cases hd : t = str "DENY"
    · simp only [hd, if_true]
      constructor
      · intro hv; exact absurd hv (by decide)
      · intro hv; exact absurd hv (by decide)
    · by_cases ha : t = str "ALLOW"
      · subst ha
        simp only [hd, if_false, if_true]
      · simp [hd, ha]
  by_cases h : strncmp r SOCKET_RESPONSE 7 = 0
  · have ht : r.take 7 = SOCKET_RESPONSE := by
      have := (strncmp_eq_zero_iff _ _ _).1 h
      rw [this]; decide
    have hr : r = SOCKET_RESPONSE ++ r.drop 7 := by
      conv_lhs => rw [← List.take_append_drop 7 r, ht]
    have hsel : (if (strncmp r SOCKET_RESPONSE 7 != 0) = true then r else r.drop 7)
        = r.drop 7 := by simp [h]
    simp only [hsel]
    rw [key]
    have e1 : str "socket:ALLOW" = SOCKET_RESPONSE ++ str "ALLOW" := by decide
    have hne : r ≠ str "ALLOW" := by
      intro hc
      rw [hc] at ht
      exact absurd ht (by decide)
    constructor
    · intro ha
      left
      rw [hr, ha, e1]
    · rintro (hs | hs)
      · rw [hs]; decide
      · exact absurd hs hne
  · have hne : r ≠ str "socket:ALLOW" := by
      intro hc
      apply h
      rw [hc]; decide
    have hsel : (if (strncmp r SOCKET_RESPONSE 7 != 0) = true then r else r.drop 7)
        = r := by simp [h]
    simp only [hsel]
    rw [key]
    constructor
    · intro ha; exact Or.inr ha
    · rintro (hs | hs)
      · exact absurd hs hne
      · exact hs

theorem cstr_append_nul_length (l : List Nat) : (cstr (l ++ [0])).length ≤ l.length := by
  induction l with
  | nil => simp [cstr]
  | cons a t ih =>
    simp only [cstr, List.cons_append, List.takeWhile_cons] at ih ⊢
    split
    · simp only [List.length_cons]; omega
    · simp

theorem cstr_receive_length (bytes : List Nat) :
    (cstr (socket_receive_result (some bytes) 64).2).length ≤ 63 := by
  simp only [socket_receive_result]
  refine le_trans (cstr_append_nul_length _) ?_
  simp only [List.length_take]
  omega

/-- C2. Verdict parsing. For every response `bytes` the requestor sends, the read
succeeds with a string of at most 63 bytes (the bytes up to the first NUL), and
`main` calls `allow` if and only if that string is exactly "socket:ALLOW" or exactly
"ALLOW"; for every other string it calls `deny`. The five responses "socket:ALLOW",
"ALLOW", "socket:DENY", "DENY", "garbage" map to ALLOW, ALLOW, DENY, DENY, DENY, and
the empty string, "socket:" alone and "socket:socket:ALLOW" map to DENY. -/
theorem C2_verdict_parsing (env : Env) (s : State) (bytes : List Nat) :
    (socket_receive_result (some bytes) 64).1 = 0 ∧
    (cstr (socket_receive_result (some bytes) 64).2).length ≤ 63 ∧
    (parse_verdict (socket_receive_result (some bytes) 64).2 = allow_t.ALLOW ↔
      cstr (socket_receive_result (some bytes) 64).2 = str "socket:ALLOW" ∨
      cstr (socket_receive_result (some bytes) 64).2 = str "ALLOW") ∧
    (parse_verdict (socket_receive_result (some bytes) 64).2 = allow_t.ALLOW →
      main_verdict env (socket_receive_result (some bytes) 64).2 s = allow env s) ∧
    (parse_verdict (socket_receive_result (some bytes) 64).2 ≠ allow_t.ALLOW →
      main_verdict env (socket_receive_result (some bytes) 64).2 s = deny s) ∧
    (List.map (fun r => parse_verdict (socket_receive_result (some (str r)) 64).2)
        ["socket:ALLOW", "ALLOW", "socket:DENY", "DENY", "garbage"] =
      [allow_t.ALLOW, allow_t.ALLOW, allow_t.DENY, allow_t.DENY, allow_t.DENY]) ∧
    (List.map (fun r => parse_verdict (socket_receive_result (some (str r)) 64).2)
        ["", "socket:", "socket:socket:ALLOW"] =
      [allow_t.DENY, allow_t.DENY, allow_t.DENY]) := by
  refine ⟨rfl, cstr_receive_length bytes, parse_verdict_eq_allow_iff _, ?_, ?_, ?_, ?_⟩
  · intro h
    simp [main_verdict, h]
  · intro h
    unfold main_verdict
    split
    · next h2 => exact absurd h2 h
    · rfl
  · decide
  · decide

/-! ### The policy gate -/

theorem access_disabled_of_debuggable (build_type : List Nat) (ra : Option (List Nat))
    (uid : Nat) :
    access_disabled ⟨true, build_type, str "1", ra⟩ uid =
      if (strcmp (str "eng") build_type != 0 && uid != AID_SHELL && uid != AID_ROOT &&
          Int.land (atoi (enabled_value ra)) CM_ROOT_ACCESS_APPS_ONLY
            != CM_ROOT_ACCESS_APPS_ONLY) = true then 1
      else if (uid == AID_SHELL &&
          Int.land (atoi (enabled_value ra)) CM_ROOT_ACCESS_ADB_ONLY
            != CM_ROOT_ACCESS_ADB_ONLY) = true then 1
      else 0 := by
  have h1 : strcmp (str "1") (str "1") = 0 := (strcmp_eq_zero_iff _ _).2 rfl
  simp [access_disabled, h1]

/-- C4. Policy gate decision table. On a build with `ro.cm.version` present,
`ro.debuggable` equal to "1" and `ro.build.type` other than "eng", for every caller
uid and every `persist.sys.root_access` value `v` in 0..3 (an absent file counting as
`v = 1`), `access_disabled` refuses if and only if the caller is neither shell nor
root and bit 0 of `v` is clear, or the caller is shell and bit 1 of `v` is clear; a
root caller is never refused. -/
theorem C4_policy_gate_table (uid v : Nat) (build_type : List Nat)
    (root_access : Option (List Nat))
    (hbt : build_type ≠ str "eng") (hv : v < 4)
    (hra : (root_access = none ∧ v = 1) ∨
      ∃ data, root_access = some data ∧ strlen data < PROPERTY_VALUE_MAX ∧
        atoi (cstr data) = (v : Int)) :
    (access_disabled ⟨true, build_type, str "1", root_access⟩ uid ≠ 0 ↔
      (uid ≠ AID_SHELL ∧ uid ≠ AID_ROOT ∧ v.testBit 0 = false) ∨
      (uid = AID_SHELL ∧ v.testBit 1 = false)) ∧
    (uid = AID_ROOT → access_disabled ⟨true, build_type, str "1", root_access⟩ uid = 0) := by
  have he : atoi (enabled_value root_access) = (v : Int) := by
    rcases hra with ⟨h1, h2⟩ | ⟨data, h1, h2, h3⟩
    · subst h1; subst h2; decide
    · subst h1
      simp only [enabled_value, ge_iff_le, Nat.not_le.mpr h2, if_false]
      exact h3
  have hb : strcmp (str "eng") build_type ≠ 0 := by
    intro hc
    exact hbt ((strcmp_eq_zero_iff _ _).1 hc).symm
  rw [access_disabled_of_debuggable, he]
  simp only [bne_iff_ne, ne_eq, hb, not_false_eq_true, Bool.true_and, Bool.and_eq_true,
    beq_iff_eq, decide_eq_true_eq]
  by_cases hs : uid = AID_SHELL
  · subst hs
    interval_cases v <;> decide
  · by_cases hr : uid = AID_ROOT
    · subst hr
      interval_cases v <;> decide
    · interval_cases v <;> simp [hs, hr] <;> decide

/-- Witness of C4: an app caller (uid 10042) on a "user" build with
`persist.sys.root_access` holding "2". -/
theorem C4_policy_gate_table_witness :
    (access_disabled ⟨true, str "user", str "1", some (str "2")⟩ 10042 ≠ 0 ↔
      (10042 ≠ AID_SHELL ∧ 10042 ≠ AID_ROOT ∧ (2 : Nat).testBit 0 = false) ∨
      (10042 = AID_SHELL ∧ (2 : Nat).testBit 1 = false)) ∧
    (10042 = AID_ROOT →
      access_disabled ⟨true, str "user", str "1", some (str "2")⟩ 10042 = 0) :=
  C4_policy_gate_table 10042 2 (str "user") (some (str "2")) (by decide) (by decide)
    (Or.inr ⟨str "2", rfl, by decide, by decide⟩)

/-- C5, counterexample. On an "eng" build the gate still refuses: an app caller when
`ro.debuggable` is "0", and a shell caller when `ro.debuggable` is "1" and
`persist.sys.root_access` is "1" (adb-shell bit clear). -/
theorem C5_eng_bypass_counterexample :
    access_disabled ⟨true, str "eng", str "0", none⟩ 10042 = 1 ∧
    access_disabled ⟨true, str "eng", str "1", some (str "1")⟩ AID_SHELL = 1 := by
  decide

/-- C5, amended. If `ro.build.type` is "eng", only the apps-bit check is bypassed:
`access_disabled` refuses exactly when `ro.cm.version` is present and either
`ro.debuggable` is not "1" or the caller is shell and the adb-shell bit of
`persist.sys.root_access` is clear. So with `ro.debuggable` equal to "1" no caller
other than shell is refused, whatever `persist.sys.root_access` holds. -/
theorem C5_eng_bypass_amended (uid : Nat) (p : PropFiles)
    (heng : p.build_type = str "eng") :
    (access_disabled p uid ≠ 0 ↔
      p.cm_version = true ∧
        (p.debuggable ≠ str "1" ∨
          (uid = AID_SHELL ∧
            Int.land (atoi (enabled_value p.root_access)) CM_ROOT_ACCESS_ADB_ONLY
              ≠ CM_ROOT_ACCESS_ADB_ONLY))) ∧
    (p.debuggable = str "1" → uid ≠ AID_SHELL → access_disabled p uid = 0) := by
  have hb : strcmp (str "eng") p.build_type = 0 := (strcmp_eq_zero_iff _ _).2 heng.symm
  have hd : strcmp (str "1") p.debuggable = 0 ↔ p.debuggable = str "1" := by
    rw [strcmp_eq_zero_iff]; exact eq_comm
  constructor
  · unfold access_disabled
    by_cases hcm : p.cm_version = true
    · by_cases hdbg : p.debuggable = str "1"
      · have h0 := hd.2 hdbg
        by_cases hs : uid = AID_SHELL
        · by_cases hbit : Int.land (atoi (enabled_value p.root_access))
              CM_ROOT_ACCESS_ADB_ONLY = CM_ROOT_ACCESS_ADB_ONLY
          · simp [hcm, strcmp_eq_zero_iff, hb, hs, hbit, hdbg]
          · simp [hcm, strcmp_eq_zero_iff, hb, hs, hbit, hdbg]
        · simp [hcm, strcmp_eq_zero_iff, hb, hs, hdbg]
      · have h0 : strcmp (str "1") p.debuggable ≠ 0 := fun hc => hdbg (hd.1 hc)
        simp [hcm, h0, hdbg]
    · simp [hcm]
  · intro hdbg hs
    have h0 := hd.2 hdbg
    unfold access_disabled
    simp [h0, hb, hs]

/-- Witness of the amended C5: an app caller on an "eng" build with `ro.debuggable`
equal to "1" and `persist.sys.root_access` holding "0". -/
theorem C5_eng_bypass_amended_witness :
    access_disabled ⟨true, str "eng", str "1", some (str "0")⟩ 10042 = 0 :=
  (C5_eng_bypass_amended 10042 ⟨true, str "eng", str "1", some (str "0")⟩ rfl).2
    rfl (by decide)

/-! ### The request frame -/

theorem htonl_eq_spec_be32 (n : Nat) : htonl n = spec_be32 n := by
  simp only [htonl, spec_be32]
  norm_num
  omega

theorem htonl_length (n : Nat) : (htonl n).length = 4 := by
  simp [htonl]

theorem write_token_ok (ret : Nat → Nat → Int) (data : Nat) (k : Wire → Int × Wire)
    (w : Wire) (h : ret w.calls 4 = 4) :
    write_token ret data k w = k ⟨w.sent ++ spec_be32 data, w.calls + 1⟩ := by
  simp [write_token, write, htonl_length, h, htonl_eq_spec_be32, spec_be32]

theorem write_token_short (ret : Nat → Nat → Int) (data : Nat) (k : Wire → Int × Wire)
    (w : Wire) (h : ret w.calls 4 ≠ 4) :
    (write_token ret data k w).1 = -1 ∧ (write_token ret data k w).2.calls = w.calls + 1 := by
  simp [write_token, write, htonl_length, h]

theorem write_buf_ok (ret : Nat → Nat → Int) (buf : List Nat) (k : Wire → Int × Wire)
    (w : Wire) (h : ret w.calls buf.length = buf.length) :
    write_buf ret buf k w = k ⟨w.sent ++ buf, w.calls + 1⟩ := by
  simp [write_buf, write, h]

theorem write_buf_short (ret : Nat → Nat → Int) (buf : List Nat) (k : Wire → Int × Wire)
    (w : Wire) (h : ret w.calls buf.length ≠ buf.length) :
    (write_buf ret buf k w).1 = -1 ∧ (write_buf ret buf k w).2.calls = w.calls + 1 := by
  simp [write_buf, write, h]

/-- Every one of the nine writes of a request returns the full count. -/
theorem socket_send_request_complete (hdr : Header) (ret : Nat → Nat → Int)
    (from_uid to_uid : Nat) (bin cmd : List Nat)
    (h : ∀ i, i < 9 →
      ret i ((spec_request_items hdr from_uid to_uid (cstr bin) (cstr cmd)).getD i []).length
        = (((spec_request_items hdr from_uid to_uid (cstr bin) (cstr cmd)).getD i []).length
            : Nat)) :
    socket_send_request hdr ret from_uid to_uid bin cmd ⟨[], 0⟩ =
      (0, ⟨spec_request_frame hdr from_uid to_uid (cstr bin) (cstr cmd), 9⟩) := by
  have h0 := h 0 (by decide)
  have h1 := h 1 (by decide)
  have h2 := h 2 (by decide)
  have h3 := h 3 (by decide)
  have h4 := h 4 (by decide)
  have h5 := h 5 (by decide)
  have h6 := h 6 (by decide)
  have h7 := h 7 (by decide)
  have h8 := h 8 (by decide)
  simp only [spec_request_items, List.getD_cons_zero, List.getD_cons_succ, spec_be32,
    List.length_cons, List.length_nil, List.length_append, List.length_singleton,
    Nat.reduceAdd, Nat.cast_ofNat] at h0 h1 h2 h3 h4 h5 h6 h7 h8
  unfold socket_send_request
  rw [write_token_ok _ _ _ _ h0, write_token_ok _ _ _ _ h1, write_token_ok _ _ _ _ h2,
    write_token_ok _ _ _ _ h3, write_token_ok _ _ _ _ h4]
  simp only []
  rw [write_token_ok _ _ _ _ h5,
    write_buf_ok _ _ _ _ (by simpa using h6), write_token_ok _ _ _ _ h7,
    write_buf_ok _ _ _ _ (by simpa using h8)]
  simp [spec_request_frame, spec_request_items, strlen]

/-- The first short write of a request ends it: -1 is returned and no write follows. -/
theorem socket_send_request_short (hdr : Header) (ret : Nat → Nat → Int)
    (from_uid to_uid : Nat) (bin cmd : List Nat) (k : Nat) (hk : k < 9)
    (hpre : ∀ i, i < k →
      ret i ((spec_request_items hdr from_uid to_uid (cstr bin) (cstr cmd)).getD i []).length
        = (((spec_request_items hdr from_uid to_uid (cstr bin) (cstr cmd)).getD i []).length
            : Nat))
    (hshort :
      ret k ((spec_request_items hdr from_uid to_uid (cstr bin) (cstr cmd)).getD k []).length
        ≠ (((spec_request_items hdr from_uid to_uid (cstr bin) (cstr cmd)).getD k []).length
            : Nat)) :
    (socket_send_request hdr ret from_uid to_uid bin cmd ⟨[], 0⟩).1 = -1 ∧
    (socket_send_request hdr ret from_uid to_uid bin cmd ⟨[], 0⟩).2.calls = k + 1 := by
  interval_cases k
  · -- write number 0 is the short one
    simp only [spec_request_items, List.getD_cons_zero, List.getD_cons_succ, spec_be32,
      List.length_cons, List.length_nil, List.length_append, List.length_singleton,
      Nat.reduceAdd, Nat.cast_ofNat] at hshort
    unfold socket_send_request
    exact write_token_short _ _ _ _ hshort
  · -- write number 1 is the short one
    have h0 := hpre 0 (by decide)
    simp only [spec_request_items, List.getD_cons_zero, List.getD_cons_succ, spec_be32,
      List.length_cons, List.length_nil, List.length_append, List.length_singleton,
      Nat.reduceAdd, Nat.cast_ofNat] at h0 hshort
    unfold socket_send_request
    rw [write_token_ok _ _ _ _ h0]
    exact write_token_short _ _ _ _ hshort
  · -- write number 2 is the short one
    have h0 := hpre 0 (by decide)
    have h1 := hpre 1 (by decide)
    simp only [spec_request_items, List.getD_cons_zero, List.getD_cons_succ, spec_be32,
      List.length_cons, List.length_nil, List.length_append, List.length_singleton,
      Nat.reduceAdd, Nat.cast_ofNat] at h0 h1 hshort
    unfold socket_send_request
    rw [write_token_ok _ _ _ _ h0]
    rw [write_token_ok _ _ _ _ h1]
    exact write_token_short _ _ _ _ hshort
  · -- write number 3 is the short one
    have h0 := hpre 0 (by decide)
    have h1 := hpre 1 (by decide)
    have h2 := hpre 2 (by decide)
    simp only [spec_request_items, List.getD_cons_zero, List.getD_cons_succ, spec_be32,
      List.length_cons, List.length_nil, List.length_append, List.length_singleton,
      Nat.reduceAdd, Nat.cast_ofNat] at h0 h1 h2 hshort
    unfold socket_send_request
    rw [write_token_ok _ _ _ _ h0]
    rw [write_token_ok _ _ _ _ h1]
    rw [write_token_ok _ _ _ _ h2]
    exact write_token_short _ _ _ _ hshort
  · -- write number 4 is the short one
    have h0 := hpre 0 (by decide)
    have h1 := hpre 1 (by decide)
    have h2 := hpre 2 (by decide)
    have h3 := hpre 3 (by decide)
    simp only [spec_request_items, List.getD_cons_zero, List.getD_cons_succ, spec_be32,
      List.length_cons, List.length_nil, List.length_append, List.length_singleton,
      Nat.reduceAdd, Nat.cast_ofNat] at h0 h1 h2 h3 hshort
    unfold socket_send_request
    rw [write_token_ok _ _ _ _ h0]
    rw [write_token_ok _ _ _ _ h1]
    rw [write_token_ok _ _ _ _ h2]
    rw [write_token_ok _ _ _ _ h3]
    exact write_token_short _ _ _ _ hshort
  · -- write number 5 is the short one
    have h0 := hpre 0 (by decide)
    have h1 := hpre 1 (by decide)
    have h2 := hpre 2 (by decide)
    have h3 := hpre 3 (by decide)
    have h4 := hpre 4 (by decide)
    simp only [spec_request_items, List.getD_cons_zero, List.getD_cons_succ, spec_be32,
      List.length_cons, List.length_nil, List.length_append, List.length_singleton,
      Nat.reduceAdd, Nat.cast_ofNat] at h0 h1 h2 h3 h4 hshort
    unfold socket_send_request
    rw [write_token_ok _ _ _ _ h0]
    rw [write_token_ok _ _ _ _ h1]
    rw [write_token_ok _ _ _ _ h2]
    rw [write_token_ok _ _ _ _ h3]
    rw [write_token_ok _ _ _ _ h4]
    simp only []
    exact write_token_short _ _ _ _ hshort
  · -- write number 6 is the short one
    have h0 := hpre 0 (by decide)
    have h1 := hpre 1 (by decide)
    have h2 := hpre 2 (by decide)
    have h3 := hpre 3 (by decide)
    have h4 := hpre 4 (by decide)
    have h5 := hpre 5 (by decide)
    simp only [spec_request_items, List.getD_cons_zero, List.getD_cons_succ, spec_be32,
      List.length_cons, List.length_nil, List.length_append, List.length_singleton,
      Nat.reduceAdd, Nat.cast_ofNat] at h0 h1 h2 h3 h4 h5 hshort
    unfold socket_send_request
    rw [write_token_ok _ _ _ _ h0]
    rw [write_token_ok _ _ _ _ h1]
    rw [write_token_ok _ _ _ _ h2]
    rw [write_token_ok _ _ _ _ h3]
    rw [write_token_ok _ _ _ _ h4]
    simp only []
    rw [write_token_ok _ _ _ _ h5]
    exact write_buf_short _ _ _ _ (by simpa using hshort)
  · -- write number 7 is the short one
    have h0 := hpre 0 (by decide)
    have h1 := hpre 1 (by decide)
    have h2 := hpre 2 (by decide)
    have h3 := hpre 3 (by decide)
    have h4 := hpre 4 (by decide)
    have h5 := hpre 5 (by decide)
    have h6 := hpre 6 (by decide)
    simp only [spec_request_items, List.getD_cons_zero, List.getD_cons_succ, spec_be32,
      List.length_cons, List.length_nil, List.length_append, List.length_singleton,
      Nat.reduceAdd, Nat.cast_ofNat] at h0 h1 h2 h3 h4 h5 h6 hshort
    unfold socket_send_request
    rw [write_token_ok _ _ _ _ h0]
    rw [write_token_ok _ _ _ _ h1]
    rw [write_token_ok _ _ _ _ h2]
    rw [write_token_ok _ _ _ _ h3]
    rw [write_token_ok _ _ _ _ h4]
    simp only []
    rw [write_token_ok _ _ _ _ h5]
    rw [write_buf_ok _ _ _ _ (by simpa using h6)]
    exact write_token_short _ _ _ _ hshort
  · -- write number 8 is the short one
    have h0 := hpre 0 (by decide)
    have h1 := hpre 1 (by decide)
    have h2 := hpre 2 (by decide)
    have h3 := hpre 3 (by decide)
    have h4 := hpre 4 (by decide)
    have h5 := hpre 5 (by decide)
    have h6 := hpre 6 (by decide)
    have h7 := hpre 7 (by decide)
    simp only [spec_request_items, List.getD_cons_zero, List.getD_cons_succ, spec_be32,
      List.length_cons, List.length_nil, List.length_append, List.length_singleton,
      Nat.reduceAdd, Nat.cast_ofNat] at h0 h1 h2 h3 h4 h5 h6 h7 hshort
    unfold socket_send_request
    rw [write_token_ok _ _ _ _ h0]
    rw [write_token_ok _ _ _ _ h1]
    rw [write_token_ok _ _ _ _ h2]
    rw [write_token_ok _ _ _ _ h3]
    rw [write_token_ok _ _ _ _ h4]
    simp only []
    rw [write_token_ok _ _ _ _ h5]
    rw [write_buf_ok _ _ _ _ (by simpa using h6)]
    rw [write_token_ok _ _ _ _ h7]
    exact write_buf_short _ _ _ _ (by simpa using hshort)

theorem spec_be32_decode (n : Nat) (h : n < 2 ^ 32) :
    (spec_be32 n).foldl (fun acc b => acc * 256 + b) 0 = n ∧ ∀ b ∈ spec_be32 n, b < 256 := by
  simp only [spec_be32, List.foldl, List.mem_cons, List.mem_singleton, List.mem_nil_iff,
    or_false, forall_eq_or_imp, forall_eq]
  norm_num at h
  refine ⟨?_, ?_, ?_, ?_, ?_⟩ <;> omega

/-- C3. Request frame layout. For every caller uid, target uid, caller `bin` string and
target command string: when no write is short, `socket_send_request` returns 0 after
nine writes and the bytes written are, in order, be32(PROTO_VERSION), be32(PATH_MAX),
be32(ARG_MAX), be32(caller uid), be32(target uid), be32(len(bin)+1), bin, NUL,
be32(len(cmd)+1), cmd, NUL; two emissions for the same data are byte-identical; and
when write number `k` is the first short one the function returns -1 and makes no
further write. -/
theorem C3_request_frame (hdr : Header) (ret ret' : Nat → Nat → Int)
    (from_uid to_uid : Nat) (bin cmd : List Nat) :
    (writes_complete ret (spec_request_items hdr from_uid to_uid (cstr bin) (cstr cmd)) 9 →
      socket_send_request hdr ret from_uid to_uid bin cmd ⟨[], 0⟩ =
        (0, ⟨spec_be32 hdr.PROTO_VERSION ++ spec_be32 PATH_MAX ++ spec_be32 ARG_MAX ++
              spec_be32 from_uid ++ spec_be32 to_uid ++
              spec_be32 ((cstr bin).length + 1) ++ cstr bin ++ [0] ++
              spec_be32 ((cstr cmd).length + 1) ++ cstr cmd ++ [0], 9⟩)) ∧
    (writes_complete ret (spec_request_items hdr from_uid to_uid (cstr bin) (cstr cmd)) 9 →
      writes_complete ret' (spec_request_items hdr from_uid to_uid (cstr bin) (cstr cmd)) 9 →
      (socket_send_request hdr ret from_uid to_uid bin cmd ⟨[], 0⟩).2.sent =
        (socket_send_request hdr ret' from_uid to_uid bin cmd ⟨[], 0⟩).2.sent) ∧
    (∀ k, k < 9 →
      writes_complete ret (spec_request_items hdr from_uid to_uid (cstr bin) (cstr cmd)) k →
      write_short ret (spec_request_items hdr from_uid to_uid (cstr bin) (cstr cmd)) k →
      (socket_send_request hdr ret from_uid to_uid bin cmd ⟨[], 0⟩).1 = -1 ∧
      (socket_send_request hdr ret from_uid to_uid bin cmd ⟨[], 0⟩).2.calls = k + 1) := by
  refine ⟨?_, ?_, ?_⟩
  · intro h
    rw [socket_send_request_complete hdr ret from_uid to_uid bin cmd h]
    simp [spec_request_frame, spec_request_items]
  · intro h h'
    rw [socket_send_request_complete hdr ret from_uid to_uid bin cmd h,
      socket_send_request_complete hdr ret' from_uid to_uid bin cmd h']
  · intro k hk hpre hshort
    exact socket_send_request_short hdr ret from_uid to_uid bin cmd k hk hpre hshort

/-- Witness of C3: the request of an app caller (uid 10042) for root with
`bin = "/system/bin/app_process"` and an empty command, once with whole writes and once
with the fourth write (the caller uid) cut to two bytes. -/
theorem C3_request_frame_witness :
    socket_send_request ⟨2, [], 4096⟩ (fun _ n => n) 10042 0
        (str "/system/bin/app_process") [] ⟨[], 0⟩ =
      (0, ⟨[0, 0, 0, 2, 0, 0, 16, 0, 0, 2, 0, 0, 0, 0, 39, 58, 0, 0, 0, 0, 0, 0, 0, 24] ++
            str "/system/bin/app_process" ++ [0, 0, 0, 0, 1, 0], 9⟩) ∧
    ((socket_send_request ⟨2, [], 4096⟩ (fun i n => if i = 3 then 2 else n) 10042 0
        (str "/system/bin/app_process") [] ⟨[], 0⟩).1 = -1 ∧
     (socket_send_request ⟨2, [], 4096⟩ (fun i n => if i = 3 then 2 else n) 10042 0
        (str "/system/bin/app_process") [] ⟨[], 0⟩).2.calls = 3 + 1) :=
  ⟨(C3_request_frame ⟨2, [], 4096⟩ (fun _ n => n) (fun _ n => n) 10042 0
      (str "/system/bin/app_process") []).1 (fun _ _ => rfl),
   (C3_request_frame ⟨2, [], 4096⟩ (fun i n => if i = 3 then 2 else n) (fun _ n => n) 10042 0
      (str "/system/bin/app_process") []).2.2 3 (by decide)
      (fun i hi => by
        have : i ≠ 3 := Nat.ne_of_lt hi
        simp [this])
      (by unfold write_short; decide)⟩

/-! ### Caller introspection -/

theorem from_init_of_cmdline_none (hdr : Header) (fs : ProcFs) (frm : su_initiator)
    (h : from_init_cmdline fs = none) : (from_init hdr fs frm).1 = -1 := by
  simp [from_init, h]

theorem main_of_from_init_neg (env : Env)
    (h : (from_init env.hdr env.procfs (initial env).ctx.frm).1 < 0) :
    main env = deny
      { ctx := { (initial env).ctx with
                  frm := (from_init env.hdr env.procfs (initial env).ctx.frm).2 },
        w := (initial env).w } := by
  unfold main
  simp only [h, if_true]

/-- C10. Cmdline overflow is rejected. Whenever the `read` of `/proc/<ppid>/cmdline`
returns a negative count or exactly 4096, the size of the buffer, `from_init` returns
-1 and `main` calls `deny`. For every read of fewer than 4096 bytes the command-line
step does not fail and the buffer holds every byte the file had to deliver; `from_init`
then returns 0 unless `readlink` on `/proc/<ppid>/exe` fails. -/
theorem C10_cmdline_overflow (env : Env) :
    (((read_cmdline env.procfs.cmdline).1 < 0 ∨
        (read_cmdline env.procfs.cmdline).1 = 4096) →
      from_init_cmdline env.procfs = none ∧
      (from_init env.hdr env.procfs (initial env).ctx.frm).1 = -1 ∧
      main env = deny
        { ctx := { (initial env).ctx with
                    frm := (from_init env.hdr env.procfs (initial env).ctx.frm).2 },
          w := (initial env).w }) ∧
    (env.procfs.cmdline_open = true →
      0 ≤ (read_cmdline env.procfs.cmdline).1 →
      (read_cmdline env.procfs.cmdline).1 < 4096 →
      ∃ data, env.procfs.cmdline = some data ∧
        ((read_cmdline env.procfs.cmdline).1 = (data.length : Nat)) ∧
        from_init_cmdline env.procfs = some (data.length, data) ∧
        ((from_init env.hdr env.procfs (initial env).ctx.frm).1 = 0 ↔
          env.procfs.exe ≠ none)) := by
  constructor
  · intro h
    have hnone : from_init_cmdline env.procfs = none := by
      unfold from_init_cmdline
      by_cases ho : env.procfs.cmdline_open = true
      · rcases h with h | h
        · simp [ho, h]
        · simp [ho, h, ARGS_BUF]
      · simp [ho]
    have hrc := from_init_of_cmdline_none env.hdr env.procfs (initial env).ctx.frm hnone
    exact ⟨hnone, hrc, main_of_from_init_neg env (by rw [hrc]; decide)⟩
  · intro ho h0 h1
    cases hc : env.procfs.cmdline with
    | none =>
      rw [hc] at h0
      simp [read_cmdline] at h0
    | some data =>
      rw [hc] at h1
      simp only [read_cmdline, ARGS_BUF, List.length_take] at h1
      have hlen : data.length < 4096 := by omega
      have htake : data.take 4096 = data := List.take_of_length_le (by omega)
      have hcmd : from_init_cmdline env.procfs = some (data.length, data) := by
        unfold from_init_cmdline
        simp only [ho, hc, read_cmdline, ARGS_BUF, htake]
        have hneg : ¬ ((data.length : Int) < 0) := by omega
        simp [hneg]
        omega
      refine ⟨data, rfl, ?_, hcmd, ?_⟩
      · simp [read_cmdline, ARGS_BUF, htake]
      · unfold from_init
        simp only [hcmd]
        cases he : env.procfs.exe with
        | none => simp
        | some link => simp

/-- Witness of C10: a command line of exactly 4096 bytes is rejected and `main` calls
`deny`; the command line "app" with its NUL, four bytes, passes the step whole. -/
theorem C10_cmdline_overflow_witness :
    (from_init_cmdline env_overflow.procfs = none ∧
      (from_init env_overflow.hdr env_overflow.procfs (initial env_overflow).ctx.frm).1 = -1 ∧
      main env_overflow = deny
        { ctx := { (initial env_overflow).ctx with
                    frm := (from_init env_overflow.hdr env_overflow.procfs
                      (initial env_overflow).ctx.frm).2 },
          w := (initial env_overflow).w }) ∧
    (∃ data, env_app.procfs.cmdline = some data ∧
        ((read_cmdline env_app.procfs.cmdline).1 = (data.length : Nat)) ∧
        from_init_cmdline env_app.procfs = some (data.length, data) ∧
        ((from_init env_app.hdr env_app.procfs (initial env_app).ctx.frm).1 = 0 ↔
          env_app.procfs.exe ≠ none)) :=
  ⟨(C10_cmdline_overflow env_overflow).1
      (Or.inr (by
        have h : env_overflow.procfs.cmdline = some (List.replicate 4096 65) := rfl
        rw [h]
        simp only [read_cmdline, ARGS_BUF, List.length_take, List.length_replicate]
        rfl)),
   (C10_cmdline_overflow env_app).2 rfl (by decide) (by decide)⟩

/-! ### The exec argument vector -/

theorem drop_set_self {α : Type} (l : List α) (i : Nat) (a : α) (h : i < l.length) :
    (l.set i a).drop i = a :: l.drop (i + 1) := by
  induction l generalizing i with
  | nil => simp at h
  | cons x t ih =>
    cases i with
    | zero => simp
    | succ j =>
      simp only [List.length_cons, Nat.add_lt_add_iff_right] at h
      simp only [List.set_cons_succ, List.drop_succ_cons]
      exact ih j h

/-- With a command given and at least two slots before `optind` besides `argv[0]`,
every store of `allow` is within `argv[0 .. argc)` and `execv` gets `arg0`, "-c", the
command and the positional tail. -/
theorem exec_argv_command (rq : su_request) (c arg0 : List Nat)
    (hc : rq.command = some c) (h3 : 3 ≤ rq.optind)
    (hle : rq.optind ≤ (rq.argv.length : Int)) :
    exec_argv rq arg0 = some ([arg0, str "-c", c] ++ rq.argv.drop rq.optind.toNat) := by
  obtain ⟨k, hk⟩ : ∃ k : Nat, rq.optind = ((k + 3 : Nat) : Int) :=
    ⟨(rq.optind - 3).toNat, by omega⟩
  have hlen : k + 3 ≤ rq.argv.length := by omega
  have e1 : rq.optind - 1 = ((k + 2 : Nat) : Int) := by omega
  have e2 : rq.optind - 2 = ((k + 1 : Nat) : Int) := by omega
  have e3 : ((k + 1 : Nat) : Int) - 1 = ((k : Nat) : Int) := by omega
  have b1 : (0 : Int) ≤ ((k + 2 : Nat) : Int) ∧ ((k + 2 : Nat) : Int) < (rq.argv.length : Int) := by
    omega
  have b2 : (0 : Int) ≤ ((k + 1 : Nat) : Int) ∧
      ((k + 1 : Nat) : Int) < (((rq.argv.set (k + 2) c).length : Nat) : Int) := by
    rw [List.length_set]; omega
  have b3 : (0 : Int) ≤ ((k : Nat) : Int) ∧
      ((k : Nat) : Int) < ((((rq.argv.set (k + 2) c).set (k + 1) (str "-c")).length : Nat) : Int) := by
    rw [List.length_set, List.length_set]; omega
  unfold exec_argv
  simp only [hc, e1, e2, e3, argv_store, b1, b2, b3, and_self, if_true, Int.toNat_ofNat,
    Option.some_bind, Option.map_some', Option.bind_eq_bind]
  rw [hk, Int.toNat_ofNat]
  rw [drop_set_self _ _ _ (by rw [List.length_set, List.length_set]; omega)]
  rw [drop_set_self _ _ _ (by rw [List.length_set]; omega)]
  rw [drop_set_self _ _ _ (by omega)]
  rfl

/-- Without a command and with `1 ≤ optind ≤ argc`, the one store of `allow` is within
`argv[0 .. argc)` and `execv` gets `arg0` and the positional tail. -/
theorem exec_argv_no_command (rq : su_request) (arg0 : List Nat)
    (hc : rq.command = none) (h1 : 1 ≤ rq.optind)
    (hle : rq.optind ≤ (rq.argv.length : Int)) :
    exec_argv rq arg0 = some (arg0 :: rq.argv.drop rq.optind.toNat) := by
  obtain ⟨k, hk⟩ : ∃ k : Nat, rq.optind = ((k + 1 : Nat) : Int) :=
    ⟨(rq.optind - 1).toNat, by omega⟩
  have hlen : k + 1 ≤ rq.argv.length := by omega
  have e1 : rq.optind - 1 = ((k : Nat) : Int) := by omega
  have b1 : (0 : Int) ≤ ((k : Nat) : Int) ∧ ((k : Nat) : Int) < (rq.argv.length : Int) := by
    omega
  unfold exec_argv
  simp only [hc, e1, argv_store, b1, and_self, if_true, Int.toNat_ofNat,
    Option.some_bind, Option.map_some', Option.bind_eq_bind]
  rw [hk, Int.toNat_ofNat]
  rw [drop_set_self _ _ _ (by omega)]

/-- With a command given and `optind = 2`, the third store of `allow`, that of `arg0`,
goes to `argv[-1]`. -/
theorem exec_argv_attached (rq : su_request) (c arg0 : List Nat)
    (hc : rq.command = some c) (h2 : rq.optind = 2) :
    exec_argv rq arg0 = none := by
  unfold exec_argv
  simp only [hc, h2, argv_store]
  split <;> simp

/-- C6, the failing input. For `su -cid` option parsing yields `argv = ["su", "-cid"]`,
`argc = 2`, `optind = 2` and the command "id", a target record within the bounds the
claim names (`1 ≤ optind ≤ argc`, `optind ≥ 2`). `allow` stores the command in
`argv[1]`, "-c" in `argv[0]` and then `arg0` in `argv[-1]`, outside `argv[0 .. argc)`:
no vector `["sh", "-c", "id"]` within `argv` is handed to `execv`. For `su -c id`
(`optind = 3`) the stores stay within bounds and the vector is `["sh", "-c", "id"]`. -/
theorem C6_exec_argv_attached_command :
    (1 ≤ rq_attached.optind ∧ 2 ≤ rq_attached.optind ∧
      rq_attached.optind ≤ rq_attached.argc ∧
      rq_attached.argc = (rq_attached.argv.length : Int)) ∧
    argv_store rq_attached.argv (rq_attached.optind - 1) (str "id")
      = some [str "su", str "id"] ∧
    argv_store [str "su", str "id"] (rq_attached.optind - 2) (str "-c")
      = some [str "-c", str "id"] ∧
    rq_attached.optind - 3 = -1 ∧
    argv_store [str "-c", str "id"] (rq_attached.optind - 3) (str "sh") = none ∧
    exec_argv rq_attached (shell_arg0 rq_attached.shell) = none ∧
    exec_argv rq_separate (shell_arg0 rq_separate.shell)
      = some [str "sh", str "-c", str "id"] := by
  decide

/-! ### Runs of `main` -/

theorem exit_trace (status : Nat) (s : State) :
    (exit status s).st.w.trace = s.w.trace ++ [Event.exit status] ∧
    (exit status s).ending = Ending.exited status ∧
    (exit status s).st.w.cred = s.w.cred := by
  unfold exit cleanup socket_cleanup State.emit
  by_cases h1 : s.w.atexit_cleanup = true <;> by_cases h2 : s.ctx.sock_path = [] <;>
    simp [h1, h2]

theorem deny_trace (s : State) :
    (deny s).st.w.trace =
      s.w.trace ++ Event.deny ::
        ((if s.ctx.frm.uid ≠ AID_SHELL ∧ s.ctx.frm.uid ≠ AID_ROOT then
            [Event.send_intent allow_t.DENY action.ACTION_RESULT] else []) ++
          [Event.exit EXIT_FAILURE]) ∧
    (deny s).ending = Ending.exited EXIT_FAILURE := by
  unfold deny
  simp only [exit_trace, and_true]
  by_cases h1 : s.ctx.frm.uid = AID_SHELL <;> by_cases h2 : s.ctx.frm.uid = AID_ROOT <;>
    simp [h1, h2, State.emit]

theorem set_identity_cases (env : Env) (uid : Nat) (k : State → Run) (s : State) :
    (∃ s', set_identity env uid k s = exit EXIT_FAILURE s' ∧
      s'.w.trace = s.w.trace ++ [Event.set_identity uid]) ∨
    (∃ s', set_identity env uid k s = k s' ∧
      s'.w.trace = s.w.trace ++ [Event.set_identity uid] ∧ s'.ctx = s.ctx ∧
      s'.w.cred = { ruid := set_id s.w.cred.ruid uid, euid := set_id 0 uid,
                    suid := set_id s.w.cred.suid uid, rgid := set_id s.w.cred.rgid uid,
                    egid := set_id s.w.cred.egid uid, sgid := set_id s.w.cred.sgid uid,
                    groups := s.w.cred.groups }) := by
  unfold set_identity
  by_cases h1 : env.seteuid_root_ok = true
  · by_cases h2 : env.setresgid_ok = true
    · by_cases h3 : env.setresuid_ok = true
      · simp only [h1, h2, h3, Bool.not_true, Bool.false_eq_true, if_false]
        exact Or.inr ⟨_, rfl, by simp [State.emit], by simp [State.emit],
          by simp [State.emit]⟩
      · simp only [h1, h2, h3, Bool.not_true, Bool.false_eq_true, if_false,
          Bool.not_false, if_true]
        exact Or.inl ⟨_, rfl, by simp [State.emit]⟩
    · simp only [h1, h2, Bool.not_true, Bool.false_eq_true, if_false,
        Bool.not_false, if_true]
      exact Or.inl ⟨_, rfl, by simp [State.emit]⟩
  · simp only [h1, Bool.not_false, if_true]
    exact Or.inl ⟨_, rfl, by simp [State.emit]⟩

theorem allow_trace (env : Env) (s : State) :
    ∃ rest, (allow env s).st.w.trace = s.w.trace ++ Event.allow :: rest ∧
      Event.deny ∉ rest ∧ Event.allow ∉ rest ∧
      rest.filter Event.is_intent =
        (if s.ctx.frm.uid ≠ AID_SHELL ∧ s.ctx.frm.uid ≠ AID_ROOT then
          [Event.send_intent allow_t.ALLOW action.ACTION_RESULT] else []) ∧
      (∀ sh av c, Event.execv sh av c ∈ rest →
        c.ruid = set_id s.w.cred.ruid s.ctx.to_.uid ∧ c.euid = set_id 0 s.ctx.to_.uid ∧
        c.suid = set_id s.w.cred.suid s.ctx.to_.uid ∧
        c.rgid = set_id s.w.cred.rgid s.ctx.to_.uid ∧
        c.egid = set_id s.w.cred.egid s.ctx.to_.uid ∧
        c.sgid = set_id s.w.cred.sgid s.ctx.to_.uid ∧
        c.groups = s.w.cred.groups ∧ sh = s.ctx.to_.shell ∧
        av = exec_argv s.ctx.to_
          (if s.ctx.to_.login then 45 :: shell_arg0 s.ctx.to_.shell
            else shell_arg0 s.ctx.to_.shell)) := by
  -- the state after the result notification
  obtain ⟨s1, hs1, htr1, hctx1, hcred1⟩ : ∃ s1 : State,
      s1 = (if (s.ctx.frm.uid != AID_SHELL && s.ctx.frm.uid != AID_ROOT) = true then
          ({ (s.emit Event.allow) with
              w := { (s.emit Event.allow).w with umask := (s.emit Event.allow).ctx.umask } }
            ).emit (Event.send_intent allow_t.ALLOW action.ACTION_RESULT)
        else { (s.emit Event.allow) with
              w := { (s.emit Event.allow).w with umask := (s.emit Event.allow).ctx.umask } }) ∧
      s1.w.trace = s.w.trace ++ Event.allow ::
        (if s.ctx.frm.uid ≠ AID_SHELL ∧ s.ctx.frm.uid ≠ AID_ROOT then
          [Event.send_intent allow_t.ALLOW action.ACTION_RESULT] else []) ∧
      s1.ctx = s.ctx ∧ s1.w.cred = s.w.cred := by
    refine ⟨_, rfl, ?_, ?_, ?_⟩ <;>
      by_cases h1 : s.ctx.frm.uid = AID_SHELL <;> by_cases h2 : s.ctx.frm.uid = AID_ROOT <;>
      simp [h1, h2, State.emit]
  have hallow : allow env s =
      if (s1.ctx.to_.login && !env.malloc_ok) = true then exit EXIT_FAILURE s1
      else set_identity env s1.ctx.to_.uid (fun s =>
        if env.execv_ok = true then
          { ending := Ending.exec,
            st := s.emit (Event.execv s.ctx.to_.shell
              (exec_argv s.ctx.to_ (if s1.ctx.to_.login = true
                then 45 :: shell_arg0 s1.ctx.to_.shell else shell_arg0 s1.ctx.to_.shell))
              s.w.cred) }
        else exit EXIT_FAILURE (s.emit (Event.execv s.ctx.to_.shell
              (exec_argv s.ctx.to_ (if s1.ctx.to_.login = true
                then 45 :: shell_arg0 s1.ctx.to_.shell else shell_arg0 s1.ctx.to_.shell))
              s.w.cred))) s1 := by
    rw [hs1]
    unfold allow
    by_cases h1 : s.ctx.frm.uid = AID_SHELL <;> by_cases h2 : s.ctx.frm.uid = AID_ROOT <;>
      simp [h1, h2, State.emit]
  rw [hallow]
  clear hallow hs1
  have hI : Event.deny ∉ (if s.ctx.frm.uid ≠ AID_SHELL ∧ s.ctx.frm.uid ≠ AID_ROOT then
        [Event.send_intent allow_t.ALLOW action.ACTION_RESULT] else []) ∧
      Event.allow ∉ (if s.ctx.frm.uid ≠ AID_SHELL ∧ s.ctx.frm.uid ≠ AID_ROOT then
        [Event.send_intent allow_t.ALLOW action.ACTION_RESULT] else []) ∧
      (if s.ctx.frm.uid ≠ AID_SHELL ∧ s.ctx.frm.uid ≠ AID_ROOT then
        [Event.send_intent allow_t.ALLOW action.ACTION_RESULT] else []).filter Event.is_intent
        = (if s.ctx.frm.uid ≠ AID_SHELL ∧ s.ctx.frm.uid ≠ AID_ROOT then
        [Event.send_intent allow_t.ALLOW action.ACTION_RESULT] else []) ∧
      ∀ sh av c, Event.execv sh av c ∉
        (if s.ctx.frm.uid ≠ AID_SHELL ∧ s.ctx.frm.uid ≠ AID_ROOT then
        [Event.send_intent allow_t.ALLOW action.ACTION_RESULT] else []) := by
    split <;> simp [Event.is_intent]
  generalize (if s.ctx.frm.uid ≠ AID_SHELL ∧ s.ctx.frm.uid ≠ AID_ROOT then
        [Event.send_intent allow_t.ALLOW action.ACTION_RESULT] else []) = I at htr1 hI ⊢
  obtain ⟨hI1, hI2, hI3, hI4⟩ := hI
  by_cases hm : (s1.ctx.to_.login && !env.malloc_ok) = true
  · rw [if_pos hm]
    simp only [exit_trace, htr1]
    refine ⟨I ++ [Event.exit EXIT_FAILURE], by simp, ?_, ?_, ?_, ?_⟩
    · simp [hI1]
    · simp [hI2]
    · simp [List.filter_append, hI3, Event.is_intent]
    · intro sh av c hc
      simp [hI4] at hc
  · rw [if_neg hm]
    rcases set_identity_cases env s1.ctx.to_.uid
      (fun s =>
        if env.execv_ok = true then
          { ending := Ending.exec,
            st := s.emit (Event.execv s.ctx.to_.shell
              (exec_argv s.ctx.to_ (if s1.ctx.to_.login = true
                then 45 :: shell_arg0 s1.ctx.to_.shell else shell_arg0 s1.ctx.to_.shell))
              s.w.cred) }
        else exit EXIT_FAILURE (s.emit (Event.execv s.ctx.to_.shell
              (exec_argv s.ctx.to_ (if s1.ctx.to_.login = true
                then 45 :: shell_arg0 s1.ctx.to_.shell else shell_arg0 s1.ctx.to_.shell))
              s.w.cred))) s1
      with ⟨s2, h2, htr2⟩ | ⟨s2, h2, htr2, hctx2, hcred2⟩
    · rw [h2]
      clear h2
      simp only [exit_trace, htr2, htr1]
      refine ⟨I ++ [Event.set_identity s1.ctx.to_.uid, Event.exit EXIT_FAILURE], by simp,
        ?_, ?_, ?_, ?_⟩
      · simp [hI1]
      · simp [hI2]
      · simp [List.filter_append, hI3, Event.is_intent]
      · intro sh av c hc
        simp [hI4] at hc
    · rw [h2]
      clear h2
      by_cases he : env.execv_ok = true
      · simp only [he, if_true, State.emit, htr2, htr1]
        refine ⟨I ++ [Event.set_identity s1.ctx.to_.uid,
          Event.execv s2.ctx.to_.shell
              (exec_argv s2.ctx.to_ (if s1.ctx.to_.login = true
                then 45 :: shell_arg0 s1.ctx.to_.shell else shell_arg0 s1.ctx.to_.shell))
              s2.w.cred], by simp, ?_, ?_, ?_, ?_⟩
        · simp [hI1]
        · simp [hI2]
        · simp [List.filter_append, hI3, Event.is_intent]
        · intro sh av c hc
          simp [hI4] at hc
          obtain ⟨rfl, rfl, rfl⟩ := hc
          simp [hcred2, hctx2, hctx1, hcred1]
      · simp only [he, if_false, exit_trace, State.emit, htr2, htr1]
        refine ⟨I ++ [Event.set_identity s1.ctx.to_.uid,
          Event.execv s2.ctx.to_.shell
              (exec_argv s2.ctx.to_ (if s1.ctx.to_.login = true
                then 45 :: shell_arg0 s1.ctx.to_.shell else shell_arg0 s1.ctx.to_.shell))
              s2.w.cred, Event.exit EXIT_FAILURE], by simp [exit_trace], ?_, ?_, ?_, ?_⟩
        · simp [hI1]
        · simp [hI2]
        · simp [List.filter_append, hI3, Event.is_intent]
        · intro sh av c hc
          simp [hI4] at hc
          obtain ⟨rfl, rfl, rfl⟩ := hc
          simp [hcred2, hctx2, hctx1, hcred1]

theorem from_init_uid (hdr : Header) (fs : ProcFs) (frm : su_initiator) :
    (from_init hdr fs frm).2.uid = fs.getuid := by
  unfold from_init
  cases from_init_cmdline fs with
  | none => rfl
  | some p =>
    cases fs.exe with
    | none =>
      simp only []
      split <;> rfl
    | some link =>
      simp only []
      split <;> rfl

theorem from_init_rc (hdr : Header) (fs : ProcFs) (frm : su_initiator) :
    (from_init hdr fs frm).1 = 0 ∨ (from_init hdr fs frm).1 = -1 := by
  unfold from_init
  cases from_init_cmdline fs with
  | none => exact Or.inr rfl
  | some p =>
    cases fs.exe with
    | none => exact Or.inr rfl
    | some link => exact Or.inl rfl

theorem read_options_preserves (options : Option (List Nat)) (s : State) :
    (read_options options s).ctx.frm = s.ctx.frm ∧
    (read_options options s).ctx.to_ = s.ctx.to_ ∧
    (read_options options s).ctx.sock_path = s.ctx.sock_path ∧
    (read_options options s).w = s.w := by
  unfold read_options
  cases options with
  | none => simp
  | some mode =>
    simp only []
    split_ifs <;> simp

theorem user_init_preserves (s : State) :
    (user_init s).ctx.frm = s.ctx.frm ∧ (user_init s).ctx.to_ = s.ctx.to_ ∧
    (user_init s).ctx.sock_path = s.ctx.sock_path ∧ (user_init s).w = s.w := by
  unfold user_init
  split_ifs <;> simp

theorem socket_create_temp_preserves (env : Env) (s : State) :
    (socket_create_temp env s).2.ctx.frm = s.ctx.frm ∧
    (socket_create_temp env s).2.ctx.to_ = s.ctx.to_ ∧
    (socket_create_temp env s).2.w.cred = s.w.cred ∧
    (socket_create_temp env s).2.w.trace = s.w.trace := by
  unfold socket_create_temp
  simp only []
  split_ifs <;> simp

theorem socket_create_temp_fst (env : Env) (s s' : State) :
    (socket_create_temp env s).1 = (socket_create_temp env s').1 := by
  unfold socket_create_temp
  simp only []
  split_ifs <;> simp

theorem socket_cleanup_preserves (s : State) :
    (socket_cleanup s).ctx.frm = s.ctx.frm ∧ (socket_cleanup s).ctx.to_ = s.ctx.to_ ∧
    (socket_cleanup s).w.cred = s.w.cred ∧ (socket_cleanup s).w.trace = s.w.trace := by
  unfold socket_cleanup
  split_ifs <;> simp

theorem main_verdict_allow (env : Env) (buf : List Nat) (s : State)
    (h : parse_verdict buf = allow_t.ALLOW) : main_verdict env buf s = allow env s := by
  simp [main_verdict, h]

theorem main_verdict_deny (env : Env) (buf : List Nat) (s : State)
    (h : parse_verdict buf ≠ allow_t.ALLOW) : main_verdict env buf s = deny s := by
  unfold main_verdict
  split
  · next h2 => exact absurd h2 h
  · rfl

theorem main_rendezvous_cases (env : Env) (s : State) :
    ∃ s', s'.ctx.frm = s.ctx.frm ∧ s'.ctx.to_ = s.ctx.to_ ∧ s'.w.cred = s.w.cred ∧
      (s'.w.trace = s.w.trace ∨
        s'.w.trace =
          s.w.trace ++ [Event.send_intent allow_t.INTERACTIVE action.ACTION_REQUEST]) ∧
      (main_rendezvous env s = deny s' ∨
        (main_rendezvous env s = allow env s' ∧
          0 ≤ (socket_create_temp env s).1 ∧
          0 ≤ env.send_intent_request ∧
          0 ≤ socket_accept env ∧
          (socket_send_request env.hdr env.write_ret s.ctx.frm.uid s.ctx.to_.uid
            s.ctx.frm.bin env.get_command ⟨[], 0⟩).1 = 0 ∧
          (socket_receive_result env.response 64).1 = 0 ∧
          parse_verdict (socket_receive_result env.response 64).2 = allow_t.ALLOW)) := by
  obtain ⟨p1, p2, p3, p4⟩ := socket_create_temp_preserves env s
  unfold main_rendezvous
  simp only []
  by_cases h1 : (socket_create_temp env s).1 < 0
  · rw [if_pos h1]
    exact ⟨_, p1, p2, p3, Or.inl p4, Or.inl rfl⟩
  rw [if_neg h1]
  by_cases h2 : env.send_intent_request < 0
  · rw [if_pos h2]
    exact ⟨_, by simp [State.emit, p1], by simp [State.emit, p2], by simp [State.emit, p3],
      Or.inr (by simp [State.emit, p4]), Or.inl rfl⟩
  rw [if_neg h2]
  by_cases h3 : socket_accept env < 0
  · rw [if_pos h3]
    exact ⟨_, by simp [State.emit, p1], by simp [State.emit, p2], by simp [State.emit, p3],
      Or.inr (by simp [State.emit, p4]), Or.inl rfl⟩
  rw [if_neg h3]
  split_ifs with h4 h5
  · exact ⟨_, by simp [State.emit, p1], by simp [State.emit, p2], by simp [State.emit, p3],
      Or.inr (by simp [State.emit, p4]), Or.inl rfl⟩
  · exact ⟨_, by simp [State.emit, p1], by simp [State.emit, p2], by simp [State.emit, p3],
      Or.inr (by simp [State.emit, p4]), Or.inl rfl⟩
  · by_cases h6 : parse_verdict (socket_receive_result env.response 64).2 = allow_t.ALLOW
    · rw [main_verdict_allow _ _ _ h6]
      refine ⟨_, ?_, ?_, ?_, Or.inr ?_, Or.inr ⟨rfl, ?_, ?_, ?_, ?_, ?_, h6⟩⟩
      · simp [State.emit, p1, socket_cleanup_preserves]
      · simp [State.emit, p2, socket_cleanup_preserves]
      · simp [State.emit, p3, socket_cleanup_preserves]
      · simp [State.emit, p4, socket_cleanup_preserves]
      · omega
      · omega
      · omega
      · simpa [State.emit, p1, p2] using h4
      · simpa using h5
    · rw [main_verdict_deny _ _ _ h6]
      refine ⟨_, ?_, ?_, ?_, Or.inr ?_, Or.inl rfl⟩
      · simp [State.emit, p1, socket_cleanup_preserves]
      · simp [State.emit, p2, socket_cleanup_preserves]
      · simp [State.emit, p3, socket_cleanup_preserves]
      · simp [State.emit, p4, socket_cleanup_preserves]

theorem main_mediate_cases (env : Env) (s : State) :
    ∃ s', s'.ctx.frm = s.ctx.frm ∧ s'.ctx.to_ = s.ctx.to_ ∧
      (s'.w.trace = s.w.trace ∨
        s'.w.trace =
          s.w.trace ++ [Event.send_intent allow_t.INTERACTIVE action.ACTION_REQUEST]) ∧
      (main_mediate env s = deny s' ∨
        (main_mediate env s = allow env s' ∧ s'.w.cred.groups = [] ∧
          (env.database_check = allow_t.ALLOW ∨
            (env.database_check = allow_t.INTERACTIVE ∧
              0 ≤ (socket_create_temp env (initial env)).1 ∧
              0 ≤ env.send_intent_request ∧
              0 ≤ socket_accept env ∧
              (socket_send_request env.hdr env.write_ret s.ctx.frm.uid s.ctx.to_.uid
                s.ctx.frm.bin env.get_command ⟨[], 0⟩).1 = 0 ∧
              (socket_receive_result env.response 64).1 = 0 ∧
              parse_verdict (socket_receive_result env.response 64).2 = allow_t.ALLOW)))) := by
  unfold main_mediate
  cases hst : env.stat with
  | none => refine ⟨_, ?_, ?_, ?_, Or.inl rfl⟩ <;> first | rfl | exact Or.inl rfl
  | some st =>
    obtain ⟨st_uid, st_gid⟩ := st
    simp only []
    split_ifs with h1 h2 h3 h4 h5
    · refine ⟨_, ?_, ?_, ?_, Or.inl rfl⟩ <;> first | rfl | exact Or.inl rfl
    · refine ⟨_, ?_, ?_, ?_, Or.inl rfl⟩ <;> first | rfl | exact Or.inl rfl
    · refine ⟨_, ?_, ?_, ?_, Or.inl rfl⟩ <;> first | rfl | exact Or.inl rfl
    · refine ⟨_, ?_, ?_, ?_, Or.inl rfl⟩ <;> first | rfl | exact Or.inl rfl
    · refine ⟨_, ?_, ?_, ?_, Or.inl rfl⟩ <;> first | rfl | exact Or.inl rfl
    · cases hdb : env.database_check with
      | INTERACTIVE =>
        simp only []
        obtain ⟨s', q1, q2, q3, q4, q5⟩ := main_rendezvous_cases env
          { ctx := s.ctx,
            w := { cred := { ruid := s.w.cred.ruid, euid := set_id s.w.cred.euid st_uid,
                             suid := s.w.cred.suid,
                             rgid := s.w.cred.rgid, egid := set_id s.w.cred.egid st_gid,
                             sgid := s.w.cred.sgid, groups := [] },
                   files := s.w.files, umask := s.w.umask,
                   atexit_cleanup := s.w.atexit_cleanup, handlers := s.w.handlers,
                   trace := s.w.trace } }
        refine ⟨s', q1, q2, q4, ?_⟩
        rcases q5 with q5 | ⟨q5, c1, c2, c3, c4, c5, c6⟩
        · exact Or.inl q5
        · refine Or.inr ⟨q5, by rw [q3], Or.inr ⟨trivial, ?_, c2, c3, c4, c5, c6⟩⟩
          rw [socket_create_temp_fst env (initial env)]
          exact c1
      | ALLOW =>
        refine ⟨_, ?_, ?_, ?_, Or.inr ⟨rfl, ?_, Or.inl rfl⟩⟩ <;> first | rfl | exact Or.inl rfl
      | DENY =>
        refine ⟨_, ?_, ?_, ?_, Or.inl rfl⟩ <;> first | rfl | exact Or.inl rfl

theorem after_user_init_preserves (env : Env) :
    (after_user_init env).ctx.frm = initiator env ∧
    (after_user_init env).ctx.to_ = env.to_ ∧
    (after_user_init env).w = (initial env).w := by
  unfold after_user_init
  obtain ⟨a1, a2, _, a4⟩ := user_init_preserves (read_options env.options
    { ctx := { (initial env).ctx with frm := initiator env }, w := (initial env).w })
  obtain ⟨b1, b2, _, b4⟩ := read_options_preserves env.options
    { ctx := { (initial env).ctx with frm := initiator env }, w := (initial env).w }
  refine ⟨by rw [a1, b1], by rw [a2, b2]; rfl, by rw [a4, b4]⟩

theorem main_unfold (env : Env) :
    main env =
      if (from_init env.hdr env.procfs (initial env).ctx.frm).1 < 0 then
        deny { ctx := { (initial env).ctx with frm := initiator env }, w := (initial env).w }
      else if ((after_user_init env).ctx.user.owner_mode == -1 &&
          (after_user_init env).ctx.user.userid != 0) = true then deny (after_user_init env)
      else if (access_disabled env.props (after_user_init env).ctx.frm.uid != 0) = true then
        deny (after_user_init env)
      else if ((after_user_init env).ctx.frm.uid == AID_ROOT ||
          (after_user_init env).ctx.frm.uid == AID_SHELL) = true then
        allow env { ctx := { (after_user_init env).ctx with umask := (after_user_init env).w.umask },
                    w := { (after_user_init env).w with umask := 0o27 } }
      else
        main_mediate env
          { ctx := { (after_user_init env).ctx with umask := (after_user_init env).w.umask },
            w := { (after_user_init env).w with umask := 0o27 } } := rfl

theorem main_cases (env : Env) :
    ∃ s', s'.ctx.frm = initiator env ∧ s'.ctx.to_ = env.to_ ∧
      (s'.w.trace = [] ∨
        (s'.w.trace = [Event.send_intent allow_t.INTERACTIVE action.ACTION_REQUEST] ∧
          (initiator env).uid ≠ AID_ROOT ∧ (initiator env).uid ≠ AID_SHELL)) ∧
      (main env = deny s' ∨
        (main env = allow env s' ∧ authorised env ∧
          (((initiator env).uid = AID_ROOT ∨ (initiator env).uid = AID_SHELL) →
            s'.w.cred = env.cred) ∧
          ((initiator env).uid ≠ AID_ROOT → (initiator env).uid ≠ AID_SHELL →
            s'.w.cred.groups = []))) := by
  obtain ⟨a1, a2, a3⟩ := after_user_init_preserves env
  rw [main_unfold]
  by_cases h1 : (from_init env.hdr env.procfs (initial env).ctx.frm).1 < 0
  · rw [if_pos h1]
    refine ⟨_, ?_, ?_, ?_, Or.inl rfl⟩
    · rfl
    · rfl
    · exact Or.inl rfl
  rw [if_neg h1]
  have hi : introspection_ok env := by
    unfold introspection_ok
    rcases from_init_rc env.hdr env.procfs (initial env).ctx.frm with h | h
    · exact h
    · rw [h] at h1
      exact absurd (by decide) h1
  by_cases h2 : ((after_user_init env).ctx.user.owner_mode == -1 &&
      (after_user_init env).ctx.user.userid != 0) = true
  · rw [if_pos h2]
    refine ⟨_, ?_, ?_, ?_, Or.inl rfl⟩
    · exact a1
    · exact a2
    · rw [a3]; exact Or.inl rfl
  rw [if_neg h2]
  have ho : owner_mode_ok env := by
    unfold owner_mode_ok
    intro hc
    apply h2
    simp [hc.1, hc.2]
  by_cases h3 : (access_disabled env.props (after_user_init env).ctx.frm.uid != 0) = true
  · rw [if_pos h3]
    refine ⟨_, ?_, ?_, ?_, Or.inl rfl⟩
    · exact a1
    · exact a2
    · rw [a3]; exact Or.inl rfl
  rw [if_neg h3]
  have hg : gate_ok env := by
    unfold gate_ok
    rw [← a1]
    simpa using h3
  by_cases h4 : ((after_user_init env).ctx.frm.uid == AID_ROOT ||
      (after_user_init env).ctx.frm.uid == AID_SHELL) = true
  · rw [if_pos h4]
    have hu : (initiator env).uid = AID_ROOT ∨ (initiator env).uid = AID_SHELL := by
      rw [← a1]
      simpa using h4
    refine ⟨_, ?_, ?_, ?_, Or.inr ⟨rfl, ⟨hi, ho, hg, ?_⟩, ?_, ?_⟩⟩
    · exact a1
    · exact a2
    · simp only [a3]; exact Or.inl rfl
    · rcases hu with hu | hu
      · exact Or.inl hu
      · exact Or.inr (Or.inl hu)
    · intro _
      simp only [a3]; rfl
    · intro n1 n2
      rcases hu with hu | hu
      · exact absurd hu n1
      · exact absurd hu n2
  rw [if_neg h4]
  have hu : (initiator env).uid ≠ AID_ROOT ∧ (initiator env).uid ≠ AID_SHELL := by
    rw [← a1]
    simpa using h4
  obtain ⟨s', q1, q2, q3, q4⟩ := main_mediate_cases env
    { ctx := { (after_user_init env).ctx with umask := (after_user_init env).w.umask },
      w := { (after_user_init env).w with umask := 0o27 } }
  refine ⟨s', ?_, ?_, ?_, ?_⟩
  · rw [q1]; exact a1
  · rw [q2]; exact a2
  · simp only [a3] at q3
    rcases q3 with q3 | q3
    · exact Or.inl q3
    · exact Or.inr ⟨q3, hu⟩
  · rcases q4 with q4 | ⟨q4, hgr, hdb⟩
    · exact Or.inl q4
    · refine Or.inr ⟨q4, ⟨hi, ho, hg, ?_⟩, ?_, ?_⟩
      · rcases hdb with hdb | ⟨hdb, c1, c2, c3, c4, c5, c6⟩
        · exact Or.inr (Or.inr (Or.inl hdb))
        · refine Or.inr (Or.inr (Or.inr ⟨hdb, c1, c2, c3, ?_, c5, c6⟩))
          simp only [a1, a2] at c4
          exact c4
      · intro hc
        rcases hc with hc | hc
        · exact absurd hc hu.1
        · exact absurd hc hu.2
      · intro _ _
        exact hgr

theorem mem_prefix_of_split {α : Type} {T rest pre post : List α} {e a : α}
    (h : pre ++ e :: post = T ++ a :: rest) (hT : e ∉ T) (hne : e ≠ a) : a ∈ pre := by
  rcases List.append_eq_append_iff.1 h with ⟨a', h1, h2⟩ | ⟨c', h1, h2⟩
  · -- `T = pre ++ a'` and `e :: post = a' ++ a :: rest`
    cases a' with
    | nil =>
      simp only [List.nil_append, List.cons.injEq] at h2
      exact absurd h2.1 hne
    | cons x t =>
      simp only [List.cons_append, List.cons.injEq] at h2
      exact absurd (by rw [h1, h2.1]; simp) hT
  · -- `pre = T ++ c'` and `a :: rest = c' ++ e :: post`
    cases c' with
    | nil =>
      simp only [List.nil_append, List.cons.injEq] at h2
      exact absurd h2.1.symm hne
    | cons x t =>
      simp only [List.cons_append, List.cons.injEq] at h2
      rw [h1, ← h2.1]
      simp

/-- A run that ends in `deny`: the trace, the ending, and that nothing privileged and no
`allow` happened. -/
theorem deny_run_facts (s : State)
    (hs : s.w.trace = [] ∨
      s.w.trace = [Event.send_intent allow_t.INTERACTIVE action.ACTION_REQUEST]) :
    Event.deny ∈ (deny s).st.w.trace ∧ Event.allow ∉ (deny s).st.w.trace ∧
    (deny s).ending = Ending.exited EXIT_FAILURE ∧
    (∀ e ∈ (deny s).st.w.trace, e.is_privileged = false) := by
  obtain ⟨ht, he⟩ := deny_trace s
  rw [ht]
  refine ⟨by simp, ?_, he, ?_⟩
  · rcases hs with hs | hs <;> rw [hs] <;> split <;> simp
  · rcases hs with hs | hs <;> rw [hs] <;> split <;> simp [Event.is_privileged]

/-- C1. Authorization soundness of the orchestrator. In every run of `main` each
`set_identity` and each `execv` is preceded by the call of `allow`; `allow` is reached
only when caller introspection succeeded, the owner-mode check passed, the policy gate
did not refuse, and the caller is root or shell, or `database_check` returned ALLOW, or
it returned INTERACTIVE and socket creation, the request notification, accept, the
request-frame send and the response read all succeeded with the verdict ALLOW. Every
other run ends in `deny` (exit with `EXIT_FAILURE`), without `set_identity` or `execv`. -/
theorem C1_authorization_soundness (env : Env) :
    (∀ pre e post, (main env).st.w.trace = pre ++ e :: post → e.is_privileged = true →
      Event.allow ∈ pre) ∧
    (Event.allow ∈ (main env).st.w.trace → authorised env) ∧
    (¬ authorised env →
      Event.deny ∈ (main env).st.w.trace ∧
      (main env).ending = Ending.exited EXIT_FAILURE ∧
      ∀ e ∈ (main env).st.w.trace, e.is_privileged = false) ∧
    (Event.allow ∉ (main env).st.w.trace →
      Event.deny ∈ (main env).st.w.trace ∧
      (main env).ending = Ending.exited EXIT_FAILURE ∧
      ∀ e ∈ (main env).st.w.trace, e.is_privileged = false) := by
  obtain ⟨s', -, -, htr, hmain⟩ := main_cases env
  have htr' : s'.w.trace = [] ∨
      s'.w.trace = [Event.send_intent allow_t.INTERACTIVE action.ACTION_REQUEST] := by
    rcases htr with h | h
    · exact Or.inl h
    · exact Or.inr h.1
  rcases hmain with hd | ⟨ha, hauth, -, -⟩
  · obtain ⟨d1, d2, d3, d4⟩ := deny_run_facts s' htr'
    rw [hd]
    refine ⟨?_, ?_, ?_, ?_⟩
    · intro pre e post hsplit hp
      have := d4 e (by rw [hsplit]; simp)
      rw [hp] at this
      exact absurd this (by decide)
    · intro hc
      exact absurd hc d2
    · intro _
      exact ⟨d1, d3, d4⟩
    · intro _
      exact ⟨d1, d3, d4⟩
  · obtain ⟨rest, hrest, -, -, -, -⟩ := allow_trace env s'
    have hin : Event.allow ∈ (main env).st.w.trace := by
      rw [ha, hrest]; simp
    refine ⟨?_, fun _ => hauth, fun hn => absurd hauth hn, fun hn => absurd hin hn⟩
    intro pre e post hsplit hp
    rw [ha, hrest] at hsplit
    refine mem_prefix_of_split hsplit.symm ?_ ?_
    · rcases htr' with h | h <;> rw [h]
      · simp
      · intro hc
        simp only [List.mem_singleton] at hc
        rw [hc] at hp
        exact absurd hp (by decide)
    · intro hc
      rw [hc] at hp
      exact absurd hp (by decide)

/-- Witness of C1: the run of `env_app`, where the requestor answers "socket:ALLOW",
reaches `allow`; the run of `env_denied`, where it answers "socket:DENY", does not. -/
theorem C1_authorization_soundness_witness :
    authorised env_app ∧
    (Event.deny ∈ (main env_denied).st.w.trace ∧
      (main env_denied).ending = Ending.exited EXIT_FAILURE ∧
      ∀ e ∈ (main env_denied).st.w.trace, e.is_privileged = false) :=
  ⟨(C1_authorization_soundness env_app).2.1 (by decide),
   (C1_authorization_soundness env_denied).2.2.2 (by decide)⟩

/-! ### Credentials at exec -/

theorem set_id_of_lt (old uid : Nat) (h : uid < ID_UNCHANGED) : set_id old uid = uid := by
  unfold set_id ID_UNCHANGED at *
  have hm : uid % 2 ^ 32 = uid := Nat.mod_eq_of_lt (by omega)
  rw [hm, if_neg (by omega)]

/-- C7, counterexample. The adb shell (uid 2000) takes the root/shell shortcut: `allow`
is called before `setgroups(0, NULL)` and `set_identity` does not touch the
supplementary groups, so `execv` is reached with the groups the process started with.
And for the target uid 4294967295, which is `(uid_t)-1`, `setresgid` and `setresuid`
leave every id as it was: `execv` is reached with real uid 2000 and effective uid 0. -/
theorem C7_credentials_at_exec_counterexample :
    ((main env_shell).st.w.trace =
      [Event.allow, Event.set_identity 0,
       Event.execv (str "/system/bin/sh") (some [str "sh", str "-c", str "id"])
         { ruid := 0, euid := 0, suid := 0, rgid := 0, egid := 0, sgid := 0,
           groups := [1003, 1004, 1007, 1011, 1015, 1028, 3001, 3002, 3003, 3006] }] ∧
      (main env_shell).ending = Ending.exec) ∧
    ((main env_unchanged_id).st.w.trace =
      [Event.allow, Event.set_identity 4294967295,
       Event.execv (str "/system/bin/sh") (some [str "sh"])
         { ruid := 2000, euid := 0, suid := 0, rgid := 2000, egid := 2000, sgid := 2000,
           groups := [1003, 1004, 1007, 1011, 1015, 1028, 3001, 3002, 3003, 3006] }] ∧
      (main env_unchanged_id).ending = Ending.exec) := by
  decide

/-- C7, amended. For every run of `main` that reaches `execv` with a target uid other
than 4294967295, which is `(uid_t)-1`, the real, effective and saved uid (and gid) all
equal the target uid at that point. The supplementary group list is empty when the
caller is neither root nor shell (the run went through the mediation); on the
root/shell shortcut it is the list the process started with. -/
theorem C7_credentials_at_exec_amended (env : Env) (sh : List Nat)
    (av : Option (List (List Nat))) (c : Cred)
    (hto : env.to_.uid < ID_UNCHANGED)
    (h : Event.execv sh av c ∈ (main env).st.w.trace) :
    c.ruid = env.to_.uid ∧ c.euid = env.to_.uid ∧ c.suid = env.to_.uid ∧
    c.rgid = env.to_.uid ∧ c.egid = env.to_.uid ∧ c.sgid = env.to_.uid ∧
    (env.procfs.getuid ≠ AID_ROOT → env.procfs.getuid ≠ AID_SHELL → c.groups = []) ∧
    (env.procfs.getuid = AID_ROOT ∨ env.procfs.getuid = AID_SHELL →
      c.groups = env.cred.groups) := by
  have huid : (initiator env).uid = env.procfs.getuid := from_init_uid _ _ _
  obtain ⟨s', -, hto', htr, hmain⟩ := main_cases env
  have htr' : s'.w.trace = [] ∨
      s'.w.trace = [Event.send_intent allow_t.INTERACTIVE action.ACTION_REQUEST] := by
    rcases htr with h | h
    · exact Or.inl h
    · exact Or.inr h.1
  rcases hmain with hd | ⟨ha, -, hshort, hmed⟩
  · obtain ⟨-, -, -, d4⟩ := deny_run_facts s' htr'
    rw [hd] at h
    exact absurd (d4 _ h) (by simp [Event.is_privileged])
  · obtain ⟨rest, hrest, -, -, -, hexec⟩ := allow_trace env s'
    rw [ha, hrest] at h
    have hin : Event.execv sh av c ∈ rest := by
      rcases htr' with h' | h' <;> rw [h'] at h <;> simpa using h
    obtain ⟨e1, e2, e3, e4, e5, e6, e7, -, -⟩ := hexec sh av c hin
    rw [hto', set_id_of_lt _ _ hto] at e1 e2 e3 e4 e5 e6
    rw [huid] at hshort hmed
    refine ⟨e1, e2, e3, e4, e5, e6, ?_, ?_⟩
    · intro n1 n2
      rw [e7]; exact hmed n1 n2
    · intro hc
      rw [e7, hshort hc]

/-- Witness of the amended C7: the run of `env_app` reaches `execv` as root with no
supplementary groups. -/
theorem C7_credentials_at_exec_amended_witness :
    (0 : Nat) = env_app.to_.uid ∧ (0 : Nat) = env_app.to_.uid ∧ (0 : Nat) = env_app.to_.uid ∧
    (0 : Nat) = env_app.to_.uid ∧ (0 : Nat) = env_app.to_.uid ∧ (0 : Nat) = env_app.to_.uid ∧
    (env_app.procfs.getuid ≠ AID_ROOT → env_app.procfs.getuid ≠ AID_SHELL →
      ([] : List Nat) = []) ∧
    (env_app.procfs.getuid = AID_ROOT ∨ env_app.procfs.getuid = AID_SHELL →
      ([] : List Nat) = env_app.cred.groups) :=
  C7_credentials_at_exec_amended env_app (str "/system/bin/sh")
    (some [str "sh", str "-c", str "id"])
    { ruid := 0, euid := 0, suid := 0, rgid := 0, egid := 0, sgid := 0, groups := [] }
    (by decide) (by decide)

/-! ### Notifications -/

/-- C9. Log-only callers. In every run of `main` whose caller uid is root (0) or shell
(2000) `send_intent` is never called, neither with ACTION_REQUEST nor with
ACTION_RESULT, whether the run ends in `allow` or in `deny`. For every other caller
uid, `deny` and `allow` each add exactly one notification to the trace, an
ACTION_RESULT carrying DENY and ALLOW respectively, and a run of `main` has exactly
one ACTION_RESULT notification: ALLOW if it reached `allow`, DENY otherwise. -/
theorem C9_log_only_callers (env : Env) (s : State) :
    ((env.procfs.getuid = AID_ROOT ∨ env.procfs.getuid = AID_SHELL) →
      ∀ e ∈ (main env).st.w.trace, e.is_intent = false) ∧
    (s.ctx.frm.uid ≠ AID_ROOT → s.ctx.frm.uid ≠ AID_SHELL →
      (∃ added, (deny s).st.w.trace = s.w.trace ++ added ∧
        added.filter Event.is_intent =
          [Event.send_intent allow_t.DENY action.ACTION_RESULT]) ∧
      (∃ added, (allow env s).st.w.trace = s.w.trace ++ added ∧
        added.filter Event.is_intent =
          [Event.send_intent allow_t.ALLOW action.ACTION_RESULT])) ∧
    (env.procfs.getuid ≠ AID_ROOT → env.procfs.getuid ≠ AID_SHELL →
      (main env).st.w.trace.filter Event.is_result =
        [Event.send_intent
          (if Event.allow ∈ (main env).st.w.trace then allow_t.ALLOW else allow_t.DENY)
          action.ACTION_RESULT]) := by
  have huid : (initiator env).uid = env.procfs.getuid := from_init_uid _ _ _
  refine ⟨?_, ?_, ?_⟩
  · intro hu
    obtain ⟨s', hfrm, -, htr, hmain⟩ := main_cases env
    rw [huid] at htr
    have htr' : s'.w.trace = [] := by
      rcases htr with h | ⟨-, n1, n2⟩
      · exact h
      · rcases hu with hu | hu
        · exact absurd hu n1
        · exact absurd hu n2
    have hcond : ¬ (s'.ctx.frm.uid ≠ AID_SHELL ∧ s'.ctx.frm.uid ≠ AID_ROOT) := by
      rw [hfrm, huid]
      rintro ⟨n2, n1⟩
      rcases hu with hu | hu
      · exact n1 hu
      · exact n2 hu
    rcases hmain with hd | ⟨ha, -, -, -⟩
    · rw [hd, (deny_trace s').1, htr', if_neg hcond]
      simp [Event.is_intent]
    · obtain ⟨rest, hrest, -, -, hint, -⟩ := allow_trace env s'
      rw [if_neg hcond] at hint
      rw [ha, hrest, htr']
      intro e he
      simp only [List.nil_append, List.mem_cons] at he
      rcases he with he | he
      · rw [he]; rfl
      · have := List.filter_eq_nil_iff.1 hint e he
        simpa using this
  · intro n1 n2
    have hcond : s.ctx.frm.uid ≠ AID_SHELL ∧ s.ctx.frm.uid ≠ AID_ROOT := ⟨n2, n1⟩
    constructor
    · refine ⟨_, (deny_trace s).1, ?_⟩
      rw [if_pos hcond]
      simp [Event.is_intent]
    · obtain ⟨rest, hrest, -, -, hint, -⟩ := allow_trace env s
      rw [if_pos hcond] at hint
      refine ⟨Event.allow :: rest, hrest, ?_⟩
      simp [Event.is_intent, hint]
  · intro n1 n2
    obtain ⟨s', hfrm, -, htr, hmain⟩ := main_cases env
    have htr' : s'.w.trace = [] ∨
        s'.w.trace = [Event.send_intent allow_t.INTERACTIVE action.ACTION_REQUEST] := by
      rcases htr with h | h
      · exact Or.inl h
      · exact Or.inr h.1
    have hcond : s'.ctx.frm.uid ≠ AID_SHELL ∧ s'.ctx.frm.uid ≠ AID_ROOT := by
      rw [hfrm, huid]
      exact ⟨n2, n1⟩
    rcases hmain with hd | ⟨ha, -, -, -⟩
    · obtain ⟨-, d2, -, -⟩ := deny_run_facts s' htr'
      rw [hd, if_neg d2, (deny_trace s').1, if_pos hcond]
      rcases htr' with h | h <;> rw [h] <;> simp [Event.is_result]
    · obtain ⟨rest, hrest, -, -, hint, -⟩ := allow_trace env s'
      rw [if_pos hcond] at hint
      have hin : Event.allow ∈ (main env).st.w.trace := by
        rw [ha, hrest]; simp
      rw [if_pos hin, ha, hrest]
      have hres : rest.filter Event.is_result =
          [Event.send_intent allow_t.ALLOW action.ACTION_RESULT] := by
        have hsub : rest.filter Event.is_result =
            (rest.filter Event.is_intent).filter Event.is_result := by
          rw [List.filter_filter]
          apply List.filter_congr
          intro e _
          cases e <;> simp [Event.is_result, Event.is_intent]
        rw [hsub, hint]
        simp [Event.is_result]
      rcases htr' with h | h <;> rw [h] <;> simp [Event.is_result, hres]

/-- Witness of C9: the shell run `env_shell` sends no notification; the app run
`env_denied` sends one result notification, carrying DENY. -/
theorem C9_log_only_callers_witness :
    (∀ e ∈ (main env_shell).st.w.trace, e.is_intent = false) ∧
    (main env_denied).st.w.trace.filter Event.is_result =
      [Event.send_intent
        (if Event.allow ∈ (main env_denied).st.w.trace then allow_t.ALLOW else allow_t.DENY)
        action.ACTION_RESULT] :=
  ⟨(C9_log_only_callers env_shell (initial env_shell)).1 (Or.inr rfl),
   (C9_log_only_callers env_denied (initial env_denied)).2.2 (by decide) (by decide)⟩

/-! ### The rendezvous socket file -/

theorem exit_files (status : Nat) (s : State) :
    (exit status s).st.w.files =
      if s.w.atexit_cleanup = true ∧ s.ctx.sock_path ≠ [] then
        s.w.files.filter (fun f => f != s.ctx.sock_path)
      else s.w.files := by
  unfold exit cleanup socket_cleanup State.emit
  by_cases h1 : s.w.atexit_cleanup = true <;> by_cases h2 : s.ctx.sock_path = [] <;>
    simp [h1, h2]

theorem deny_files (s : State) :
    (deny s).st.w.files =
      if s.w.atexit_cleanup = true ∧ s.ctx.sock_path ≠ [] then
        s.w.files.filter (fun f => f != s.ctx.sock_path)
      else s.w.files := by
  unfold deny
  rw [exit_files]
  by_cases h1 : s.ctx.frm.uid = AID_SHELL <;> by_cases h2 : s.ctx.frm.uid = AID_ROOT <;>
    simp [h1, h2, State.emit]

theorem exit_files_subset (status : Nat) (s : State) :
    ∀ f ∈ (exit status s).st.w.files, f ∈ s.w.files := by
  intro f hf
  rw [exit_files] at hf
  split at hf
  · exact (List.mem_filter.1 hf).1
  · exact hf

theorem allow_files_subset (env : Env) (s : State) :
    ∀ f ∈ (allow env s).st.w.files, f ∈ s.w.files := by
  intro f hf
  unfold allow set_identity at hf
  simp only [] at hf
  split_ifs at hf
  all_goals first
    | exact hf
    | simpa [State.emit] using exit_files_subset _ _ f hf

theorem cstr_snprintf (size : Nat) (out : List Nat) :
    cstr (snprintf size out) = snprintf size out := by
  unfold snprintf cstr
  rw [List.takeWhile_eq_self_iff]
  intro b hb
  have hb' : b ∈ List.takeWhile (fun b => b != 0) out := List.mem_of_mem_take hb
  have hp := List.mem_takeWhile_imp hb'
  exact hp

theorem sun_path_eq (env : Env) (h : (sock_path_of env).length < UNIX_PATH_MAX) :
    sun_path_of env = sock_path_of env := by
  unfold sun_path_of
  rw [snprintf, sock_path_of, cstr_snprintf, ← sock_path_of]
  exact List.take_of_length_le (by omega)

/-- The state `socket_create_temp` leaves when `bind` has succeeded: the path is stored
in the context and the socket file exists, whether or not `listen` succeeds. -/
theorem socket_create_temp_bound (env : Env) (s : State)
    (h0 : 0 ≤ env.socket_fd) (h1 : env.fcntl_ok = true) (h2 : env.bind_ok = true) :
    (socket_create_temp env s).2.ctx.sock_path = sock_path_of env ∧
    (socket_create_temp env s).2.w.files =
      sun_path_of env :: s.w.files.filter (fun f => f != sun_path_of env) ∧
    (socket_create_temp env s).2.w.atexit_cleanup = s.w.atexit_cleanup ∧
    (socket_create_temp env s).1 = if env.listen_ok = true then env.socket_fd else -1 := by
  unfold socket_create_temp
  have hneg : ¬ env.socket_fd < 0 := by omega
  by_cases h3 : env.listen_ok = true <;>
    simp [hneg, h1, h2, h3, sock_path_of, sun_path_of]

/-- The defect behind C8, for every run: when `bind` succeeds and `listen` fails,
`main` calls `deny` before `cleanup` is registered with `atexit`, and the socket file
is still there when the process has exited. -/
theorem rendezvous_listen_failure_leaves_socket (env : Env) (s : State)
    (h0 : 0 ≤ env.socket_fd) (h1 : env.fcntl_ok = true) (h2 : env.bind_ok = true)
    (h3 : env.listen_ok = false) (hat : s.w.atexit_cleanup = false) :
    main_rendezvous env s = deny (socket_create_temp env s).2 ∧
    sun_path_of env ∈ (main_rendezvous env s).st.w.files := by
  obtain ⟨b1, b2, b3, b4⟩ := socket_create_temp_bound env s h0 h1 h2
  have hrun : main_rendezvous env s = deny (socket_create_temp env s).2 := by
    unfold main_rendezvous
    simp only []
    rw [if_pos (by rw [b4]; simp [h3])]
  refine ⟨hrun, ?_⟩
  rw [hrun, deny_files, b3, hat, b2]
  simp

/-- Calling `cleanup_signal` removes the socket file whose path the context holds. -/
theorem cleanup_signal_removes (sig : Nat) (s : State) (h : s.ctx.sock_path ≠ []) :
    s.ctx.sock_path ∉ (cleanup_signal sig s).st.w.files := by
  intro hc
  have := exit_files_subset _ _ _ hc
  unfold socket_cleanup at this
  simp [h] at this

/-- Once `listen` has succeeded the socket file is gone at every exit of the
rendezvous, through `deny` (by the `atexit` hook) and through `allow` (unlinked before
the verdict is parsed). -/
theorem rendezvous_cleans_up (env : Env) (s : State)
    (h0 : 0 ≤ env.socket_fd) (h1 : env.fcntl_ok = true) (h2 : env.bind_ok = true)
    (h3 : env.listen_ok = true) (hlen : (sock_path_of env).length < UNIX_PATH_MAX)
    (hne : sock_path_of env ≠ []) :
    sun_path_of env ∉ (main_rendezvous env s).st.w.files := by
  obtain ⟨b1, b2, -, b4⟩ := socket_create_temp_bound env s h0 h1 h2
  rw [sun_path_eq env hlen] at b2 ⊢
  have hfd : ¬ (socket_create_temp env s).1 < 0 := by
    rw [b4, if_pos h3]; omega
  have hdeny : ∀ x : State, x.ctx.sock_path = sock_path_of env →
      x.w.atexit_cleanup = true → sock_path_of env ∉ (deny x).st.w.files := by
    intro x hx1 hx2
    rw [deny_files, hx1, hx2]
    simp [hne]
  have hclean : ∀ x : State, x.ctx.sock_path = sock_path_of env →
      sock_path_of env ∉ (socket_cleanup x).w.files := by
    intro x hx1
    unfold socket_cleanup
    rw [hx1]
    simp [hne]
  unfold main_rendezvous
  simp only []
  rw [if_neg hfd]
  split_ifs
  · exact hdeny _ (by simp [State.emit, b1]) (by simp [State.emit])
  · exact hdeny _ (by simp [State.emit, b1]) (by simp [State.emit])
  · exact hdeny _ (by simp [State.emit, b1]) (by simp [State.emit])
  · exact hdeny _ (by simp [State.emit, b1]) (by simp [State.emit])
  · intro hc
    have hin : sock_path_of env ∈ (socket_cleanup
        (State.emit
          { ctx := (socket_create_temp env s).2.ctx,
            w := { (socket_create_temp env s).2.w with
                    handlers := true, atexit_cleanup := true } }
          (Event.send_intent allow_t.INTERACTIVE action.ACTION_REQUEST))).w.files := by
      unfold main_verdict at hc
      split at hc
      · exact allow_files_subset _ _ _ hc
      · rw [deny_files] at hc
        split at hc
        · exact (List.mem_filter.1 hc).1
        · exact hc
    exact hclean _ (by simp [State.emit, b1]) hin

/-- C8, the failing input. In the run of `env_listen_fails` (an app caller, `bind`
succeeds, `listen` fails) `socket_create_temp` has bound `/dev/su/.socket4711` and
returns -1; `main` calls `deny`, which exits before `cleanup` was registered with
`atexit`, and the socket file is still on the filesystem when the process has exited.
In the runs where `listen` succeeds (`env_denied`, `env_app`) no socket file is left. -/
theorem C8_socket_left_after_listen_failure :
    (socket_create_temp env_listen_fails (initial env_listen_fails)).1 = -1 ∧
    Event.deny ∈ (main env_listen_fails).st.w.trace ∧
    (main env_listen_fails).ending = Ending.exited EXIT_FAILURE ∧
    (main env_listen_fails).st.w.atexit_cleanup = false ∧
    (main env_listen_fails).st.ctx.sock_path = str "/dev/su/.socket4711" ∧
    (main env_listen_fails).st.w.files = [str "/dev/su/.socket4711"] ∧
    (main env_denied).st.w.files = [] ∧
    (main env_app).st.w.files = [] := by
  decide

/-! ### The split and join of the command line -/

theorem split_loop_fold (suf : List Nat) : ∀ (pre : List Nat) (r : Option Nat),
    (List.range' pre.length suf.length).foldl
      (fun (st : List Nat × Option Nat) i =>
        if st.1.getD i 0 = 0 then
          match st.2 with
          | none => (st.1, some (i + 1))
          | some _ => (st.1.set i 32, st.2)
        else st)
      (pre ++ suf, r)
    = (pre ++ loop_bytes r.isSome suf, loop_rest r pre.length suf) := by
  induction suf with
  | nil =>
    intro pre r
    simp [loop_bytes, loop_rest]
  | cons b bs ih =>
    intro pre r
    have hget : (pre ++ b :: bs).getD pre.length 0 = b := by
      rw [List.getD_eq_getElem?_getD, List.getElem?_append_right (le_refl _)]
      simp
    have hset : (pre ++ b :: bs).set pre.length 32 = pre ++ 32 :: bs := by
      rw [List.set_append_right _ _ (le_refl _)]
      simp
    simp only [List.length_cons, List.range'_succ, List.foldl_cons, hget]
    by_cases hb : b = 0
    · subst hb
      cases r with
      | none =>
        have := ih (pre ++ [0]) (some (pre.length + 1))
        simp only [List.length_append, List.length_singleton, List.append_assoc,
          List.singleton_append, Option.isSome_some] at this
        simp only [if_true, this, loop_bytes, loop_rest, Option.isSome_none,
          Bool.false_eq_true, if_false]
      | some x =>
        have := ih (pre ++ [32]) (some x)
        simp only [List.length_append, List.length_singleton, List.append_assoc,
          List.singleton_append, Option.isSome_some] at this
        simp only [if_true, hset, this, loop_bytes, loop_rest, Option.isSome_some]
    · have := ih (pre ++ [b]) r
      simp only [List.length_append, List.length_singleton, List.append_assoc,
        List.singleton_append] at this
      simp only [hb, if_false, this, loop_bytes, loop_rest]

theorem split_cmdline_eq (args : List Nat) :
    split_cmdline args.length args = (loop_bytes false args, loop_rest none 0 args) := by
  have := split_loop_fold args [] none
  simp only [List.length_nil, List.nil_append, Option.isSome_none] at this
  unfold split_cmdline
  rw [List.range_eq_range']
  exact this

theorem loop_bytes_append (a l : List Nat) (seen : Bool) (ha : 0 ∉ a) :
    loop_bytes seen (a ++ l) = a ++ loop_bytes seen l := by
  induction a with
  | nil => rfl
  | cons x t ih =>
    have hx : x ≠ 0 := fun h => ha (by simp [h])
    have ht : 0 ∉ t := fun h => ha (by simp [h])
    show loop_bytes seen (x :: (t ++ l)) = x :: (t ++ loop_bytes seen l)
    simp only [loop_bytes, hx, if_false]
    rw [ih ht]

theorem loop_rest_append (a l : List Nat) (r : Option Nat) (i : Nat) (ha : 0 ∉ a) :
    loop_rest r i (a ++ l) = loop_rest r (i + a.length) l := by
  induction a generalizing i with
  | nil => rfl
  | cons x t ih =>
    have hx : x ≠ 0 := fun h => ha (by simp [h])
    have ht : 0 ∉ t := fun h => ha (by simp [h])
    show loop_rest r i (x :: (t ++ l)) = loop_rest r (i + (t.length + 1)) l
    simp only [loop_rest, hx, if_false]
    rw [ih _ ht]
    have e : i + 1 + t.length = i + (t.length + 1) := by omega
    rw [e]

theorem loop_rest_some (l : List Nat) (x i : Nat) : loop_rest (some x) i l = some x := by
  induction l generalizing i with
  | nil => rfl
  | cons b bs ih =>
    simp only [loop_rest]
    split <;> exact ih _

/-- Once `argv_rest` is set, the loop turns a blob of arguments into the arguments each
followed by a space. -/
theorem loop_bytes_blob (rest : List (List Nat)) (h : ∀ a ∈ rest, 0 ∉ a) :
    loop_bytes true (cmdline_blob rest) = (rest.map (fun a => a ++ [32])).flatten := by
  induction rest with
  | nil => rfl
  | cons a t ih =>
    have ha : 0 ∉ a := h a (by simp)
    have ht : ∀ b ∈ t, 0 ∉ b := fun b hb => h b (by simp [hb])
    have ih' := ih ht
    unfold cmdline_blob at ih' ⊢
    simp only [List.map_cons, List.flatten_cons, List.append_assoc, List.singleton_append]
    rw [loop_bytes_append _ _ _ ha]
    simp only [loop_bytes, if_true, ih']

theorem joined_no_nul (rest : List (List Nat)) (h : ∀ a ∈ rest, 0 ∉ a) :
    0 ∉ (rest.map (fun a => a ++ [32])).flatten := by
  intro hc
  simp only [List.mem_flatten, List.mem_map] at hc
  obtain ⟨l, ⟨a, ha, rfl⟩, hl⟩ := hc
  simp only [List.mem_append, List.mem_singleton] at hl
  rcases hl with hl | hl
  · exact h a ha hl
  · exact absurd hl (by decide)

theorem cstr_append_nul (l t : List Nat) (h : 0 ∉ l) : cstr (l ++ 0 :: t) = l := by
  induction l with
  | nil => simp [cstr]
  | cons x xs ih =>
    have hx : x ≠ 0 := fun hc => h (by simp [hc])
    have hxs : 0 ∉ xs := fun hc => h (by simp [hc])
    have ih' := ih hxs
    unfold cstr at ih' ⊢
    simp [List.takeWhile_cons, hx, ih']

/-- The loop on the blob of `a0 :: rest`: `a0` and its NUL stay, `argv_rest` points
behind that NUL, and every remaining argument is followed by a space. -/
theorem split_cmdline_blob (a0 : List Nat) (rest : List (List Nat))
    (h : ∀ a ∈ a0 :: rest, 0 ∉ a) :
    split_cmdline (cmdline_blob (a0 :: rest)).length (cmdline_blob (a0 :: rest)) =
      (a0 ++ 0 :: (rest.map (fun a => a ++ [32])).flatten, some (a0.length + 1)) := by
  have ha : 0 ∉ a0 := h a0 (by simp)
  have ht : ∀ b ∈ rest, 0 ∉ b := fun b hb => h b (by simp [hb])
  rw [split_cmdline_eq]
  have hb : cmdline_blob (a0 :: rest) = a0 ++ 0 :: cmdline_blob rest := by
    simp [cmdline_blob]
  rw [hb, loop_bytes_append _ _ _ ha, loop_rest_append _ _ _ _ ha]
  simp only [loop_bytes, loop_rest, if_true, Bool.false_eq_true, if_false, Nat.zero_add,
    loop_rest_some, loop_bytes_blob rest ht]

theorem joined_eq_intercalate (rest : List (List Nat)) (h : rest ≠ []) :
    (rest.map (fun a => a ++ [32])).flatten = spec_joined rest ++ [32] := by
  unfold spec_joined
  induction rest with
  | nil => exact absurd rfl h
  | cons a t ih =>
    cases t with
    | nil => simp [List.intercalate]
    | cons b u =>
      have ih' := ih (by simp)
      simp only [List.map_cons, List.flatten_cons] at ih' ⊢
      rw [ih']
      simp [List.intercalate, List.intersperse]

theorem loop_bytes_length (l : List Nat) (seen : Bool) :
    (loop_bytes seen l).length = l.length := by
  induction l generalizing seen with
  | nil => rfl
  | cons b bs ih =>
    simp only [loop_bytes]
    split <;> simp [ih]

theorem from_init_cmdline_of_short (fs : ProcFs) (blob : List Nat)
    (hopen : fs.cmdline_open = true) (hblob : fs.cmdline = some blob)
    (hlen : blob.length < 4096) :
    from_init_cmdline fs = some (blob.length, blob) := by
  have htake : blob.take 4096 = blob := List.take_of_length_le (by omega)
  unfold from_init_cmdline
  simp only [hopen, hblob, read_cmdline, ARGS_BUF, htake]
  have hneg : ¬ ((blob.length : Int) < 0) := by omega
  simp [hneg]
  omega

/-- What `from_init` leaves for the blob of `a0 :: rest`: the C string at the start of
`args` is `a0`, and the `args` field holds every remaining argument followed by a space,
cut to the size of the field. -/
theorem from_init_blob (hdr : Header) (fs : ProcFs) (frm : su_initiator)
    (a0 : List Nat) (rest : List (List Nat))
    (hopen : fs.cmdline_open = true)
    (hblob : fs.cmdline = some (cmdline_blob (a0 :: rest)))
    (hlen : (cmdline_blob (a0 :: rest)).length < 4096)
    (hnul : ∀ a ∈ a0 :: rest, 0 ∉ a) :
    cstr ((split_cmdline (cmdline_blob (a0 :: rest)).length
        (cmdline_blob (a0 :: rest))).1.take (cmdline_blob (a0 :: rest)).length ++ [0]) = a0 ∧
    (from_init hdr fs frm).2.args =
      ((rest.map (fun a => a ++ [32])).flatten).take (hdr.ARGS_SIZE - 1) ∧
    (fs.exe = some (str "/system/bin/app_process") → (from_init hdr fs frm).2.bin = a0) := by
  have ha : 0 ∉ a0 := hnul a0 (by simp)
  have ht : ∀ b ∈ rest, 0 ∉ b := fun b hb => hnul b (by simp [hb])
  have hJ := joined_no_nul rest ht
  have hsplit := split_cmdline_blob a0 rest hnul
  have hcmd := from_init_cmdline_of_short fs _ hopen hblob hlen
  have hl : (a0 ++ 0 :: (rest.map (fun a => a ++ [32])).flatten).length =
      (cmdline_blob (a0 :: rest)).length := by
    have := congrArg Prod.fst hsplit
    rw [split_cmdline_eq] at this
    simp only [] at this
    rw [← this, loop_bytes_length]
  have htake : (a0 ++ 0 :: (rest.map (fun a => a ++ [32])).flatten).take
      (cmdline_blob (a0 :: rest)).length =
      a0 ++ 0 :: (rest.map (fun a => a ++ [32])).flatten :=
    List.take_of_length_le (by omega)
  have hdrop : (a0 ++ 0 :: (rest.map (fun a => a ++ [32])).flatten ++ [0]).drop
      (a0.length + 1) = (rest.map (fun a => a ++ [32])).flatten ++ [0] := by
    have e : a0 ++ 0 :: (rest.map (fun a => a ++ [32])).flatten ++ [0] =
        (a0 ++ [0]) ++ ((rest.map (fun a => a ++ [32])).flatten ++ [0]) := by simp
    rw [e]
    exact List.drop_left' (by simp)
  have hargv0 : cstr (a0 ++ 0 :: (rest.map (fun a => a ++ [32])).flatten ++ [0]) = a0 := by
    rw [List.append_assoc]
    exact cstr_append_nul _ _ ha
  have ha0len : a0.length ≤ PATH_MAX - 1 := by
    have : a0.length < (cmdline_blob (a0 :: rest)).length := by
      rw [← hl]; simp
    unfold PATH_MAX
    omega
  refine ⟨?_, ?_, ?_⟩
  · rw [hsplit]
    simp only []
    rw [htake]
    exact hargv0
  · unfold from_init
    simp only [hcmd, hsplit, htake, hdrop, strncpy_term, cstr_append_nul _ [] hJ]
    cases fs.exe <;> rfl
  · intro hexe
    have happ : cstr ((str "/system/bin/app_process").take PATH_MAX ++ [0]) =
        str "/system/bin/app_process" := by decide
    have hcmp : strcmp (str "/system/bin/app_process") (str "/system/bin/app_process") = 0 :=
      (strcmp_eq_zero_iff _ _).2 rfl
    unfold from_init
    simp only [hcmd, hsplit, htake, hexe, happ, hcmp, strncpy_term, hargv0]
    simp only [bne_self_eq_false, Bool.false_eq_true, if_false]
    rw [hargv0]
    exact List.take_of_length_le ha0len

theorem joined_length_lt (a0 : List Nat) (rest : List (List Nat))
    (h : ∀ a ∈ rest, 0 ∉ a) :
    ((rest.map (fun a => a ++ [32])).flatten).length < (cmdline_blob (a0 :: rest)).length := by
  rw [← loop_bytes_blob rest h, loop_bytes_length]
  have hb : cmdline_blob (a0 :: rest) = a0 ++ 0 :: cmdline_blob rest := by
    simp [cmdline_blob]
  rw [hb]
  simp only [List.length_append, List.length_cons]
  omega

/-- C11, counterexample. For the command line of `su -c id`, the blob "su", NUL, "-c",
NUL, "id", NUL, `from_init` stores "-c id " in the `args` field, with a trailing space,
not the join "-c id" of the remaining arguments. -/
theorem C11_cmdline_split_join_counterexample :
    procfs_su_c_id.cmdline =
      some (str "su" ++ [0] ++ str "-c" ++ [0] ++ str "id" ++ [0]) ∧
    (from_init ⟨2, [], 4096⟩ procfs_su_c_id ⟨-1, 0, [], []⟩).1 = 0 ∧
    (from_init ⟨2, [], 4096⟩ procfs_su_c_id ⟨-1, 0, [], []⟩).2.args = str "-c id " ∧
    spec_joined [str "-c", str "id"] = str "-c id" ∧
    (from_init ⟨2, [], 4096⟩ procfs_su_c_id ⟨-1, 0, [], []⟩).2.args ≠
      spec_joined [str "-c", str "id"] := by
  decide

/-- C11, amended. For every command line blob of fewer than 4096 bytes that consists of
the NUL-terminated arguments `a0`, `a1`, ... (none containing NUL), and an `args` field
of at least 4096 bytes: the C string `argv0` points to is `a0` (and it becomes `bin`
when the caller's `exe` is `/system/bin/app_process`), and the `args` field holds every
remaining argument followed by one space: the remaining arguments joined by single
spaces with one trailing space, nothing added in front, and the empty string when
there is no remaining argument. -/
theorem C11_cmdline_split_join_amended (hdr : Header) (fs : ProcFs) (frm : su_initiator)
    (a0 : List Nat) (rest : List (List Nat))
    (hopen : fs.cmdline_open = true)
    (hblob : fs.cmdline = some (cmdline_blob (a0 :: rest)))
    (hlen : (cmdline_blob (a0 :: rest)).length < 4096)
    (hnul : ∀ a ∈ a0 :: rest, 0 ∉ a)
    (hsize : 4096 ≤ hdr.ARGS_SIZE) :
    cstr ((split_cmdline (cmdline_blob (a0 :: rest)).length
        (cmdline_blob (a0 :: rest))).1.take (cmdline_blob (a0 :: rest)).length ++ [0]) = a0 ∧
    (fs.exe = some (str "/system/bin/app_process") → (from_init hdr fs frm).2.bin = a0) ∧
    (from_init hdr fs frm).2.args = (rest.map (fun a => a ++ [32])).flatten ∧
    (rest ≠ [] → (from_init hdr fs frm).2.args = spec_joined rest ++ [32]) ∧
    (rest = [] → (from_init hdr fs frm).2.args = []) := by
  obtain ⟨h1, h2, h3⟩ := from_init_blob hdr fs frm a0 rest hopen hblob hlen hnul
  have ht : ∀ b ∈ rest, 0 ∉ b := fun b hb => hnul b (by simp [hb])
  have hJ := joined_length_lt a0 rest ht
  have hargs : (from_init hdr fs frm).2.args = (rest.map (fun a => a ++ [32])).flatten := by
    rw [h2]
    exact List.take_of_length_le (by omega)
  refine ⟨h1, h3, hargs, ?_, ?_⟩
  · intro hne
    rw [hargs, joined_eq_intercalate rest hne]
  · intro he
    rw [hargs, he]
    rfl

/-- Witness of the amended C11: the command line of `su -c id`. -/
theorem C11_cmdline_split_join_amended_witness :
    (from_init ⟨2, [], 4096⟩ procfs_su_c_id ⟨-1, 0, [], []⟩).2.args =
      spec_joined [str "-c", str "id"] ++ [32] :=
  (C11_cmdline_split_join_amended ⟨2, [], 4096⟩ procfs_su_c_id ⟨-1, 0, [], []⟩
    (str "su") [str "-c", str "id"] rfl rfl (by decide) (by decide) (by decide)).2.2.2.1
    (by decide)

end Su
